import Mathlib

/-!
Verification of the happy-server-lite realtime core against its specification.

The Go sources are shallowly embedded: Go maps become functions
`String → Option α`, Go strings that the protocol code indexes byte-by-byte
become `List Char`, machine integers become `Int` (with the `strconv.Atoi`
range check made explicit), and fallible operations return `Option`/`Except`.
The JSON layer (`encoding/json`) is modelled by a canonical value type `Json`
with an encoder and a fuel-based decoder; `uuid.NewString()` and
`time.Now()` are nondeterministic in the source and are passed in as
parameters.
-/

set_option linter.unusedVariables false

namespace HappyLite

/-! ## Digits, hex, and string-escape helpers (modelling strconv / encoding/json) -/

/-- Decimal digit test on a character, as Go's byte comparison `'0' <= c <= '9'`. -/
def isDigitChar (c : Char) : Bool :=
  decide (48 ≤ c.toNat ∧ c.toNat ≤ 57)

/-- Longest leading run of decimal digits, with the remainder. -/
def digitRun : List Char → List Char × List Char
  | [] => ([], [])
  | c :: cs =>
    if isDigitChar c then
      let p := digitRun cs
      (c :: p.1, p.2)
    else ([], c :: cs)

/-- Numeric value of a digit string, most significant first. -/
def digitsVal (ds : List Char) : Nat :=
  ds.foldl (fun a c => a * 10 + (c.toNat - 48)) 0

/-- Decimal digit characters of a natural number, most significant first;
`fuel` bounds the digit count so the recursion is structural. -/
def natCharsAux : Nat → Nat → List Char
  | 0, _ => []
  | f + 1, n =>
    if n < 10 then [Char.ofNat (48 + n)]
    else natCharsAux f (n / 10) ++ [Char.ofNat (48 + n % 10)]

/-- Decimal digit characters of a natural number, as `strconv.Itoa` prints them. -/
def natChars (n : Nat) : List Char := natCharsAux (n + 1) n

/-- Decimal rendering of a Go `int`, as `strconv.Itoa`. -/
def intChars (n : Int) : List Char :=
  if n < 0 then '-' :: natChars n.natAbs else natChars n.toNat

/-- The largest value of Go's 64-bit `int`. -/
def maxGoInt : Int := 9223372036854775807

/-- Model of `strconv.Atoi` applied to a non-empty digit-only string: the Go
function reports an out-of-range error beyond the 64-bit `int` maximum. -/
def atoiDigits (ds : List Char) : Option Int :=
  if (digitsVal ds : Int) ≤ maxGoInt then some (digitsVal ds) else none

/-- Lower-case hex digit character for a value below 16. -/
def hexDigitChar (k : Nat) : Char :=
  if k < 10 then Char.ofNat (48 + k) else Char.ofNat (87 + k)

/-- Value of a hex digit character. -/
def hexDigitVal (c : Char) : Option Nat :=
  if 48 ≤ c.toNat ∧ c.toNat ≤ 57 then some (c.toNat - 48)
  else if 97 ≤ c.toNat ∧ c.toNat ≤ 102 then some (c.toNat - 87)
  else if 65 ≤ c.toNat ∧ c.toNat ≤ 70 then some (c.toNat - 55)
  else none

/-- JSON escape of one character: quote and backslash get a backslash escape,
control characters a `\u00XY` escape, everything else stands for itself. -/
def escChar (c : Char) : List Char :=
  if c = '"' then ['\\', '"']
  else if c = '\\' then ['\\', '\\']
  else if c.toNat < 32 then
    ['\\', 'u', '0', '0', hexDigitChar (c.toNat / 16), hexDigitChar (c.toNat % 16)]
  else [c]

/-- JSON rendering of a string value, quotes included. -/
def encStr (s : List Char) : List Char :=
  '"' :: (List.flatten (s.map escChar) ++ ['"'])

/-- Decoder for the body of a JSON string, to run after the opening quote;
`acc` holds the characters read so far, in reverse. -/
def parseStrBody (acc : List Char) (s : List Char) : Option (List Char × List Char) :=
  match s with
  | [] => none
  | c :: cs =>
    if c = '"' then some (acc.reverse, cs)
    else if c = '\\' then
      match cs with
      | [] => none
      | e :: cs2 =>
        if e = '"' then parseStrBody ('"' :: acc) cs2
        else if e = '\\' then parseStrBody ('\\' :: acc) cs2
        else if e = 'u' then
          match cs2 with
          | h1 :: h2 :: h3 :: h4 :: cs3 =>
            match hexDigitVal h1, hexDigitVal h2, hexDigitVal h3, hexDigitVal h4 with
            | some a, some b, some c3, some d =>
              parseStrBody (Char.ofNat (((a * 16 + b) * 16 + c3) * 16 + d) :: acc) cs3
            | _, _, _, _ => none
          | _ => none
        else none
    else parseStrBody (c :: acc) cs

/-! ## JSON values and the codec (model of encoding/json on canonical output) -/

/-- JSON values: the payloads `encoding/json` moves between Go values and text.
Numbers are integers (every number the server produces is one). -/
inductive Json where
  | null : Json
  | bool (b : Bool) : Json
  | num (n : Int) : Json
  | str (s : List Char) : Json
  | arr (items : List Json) : Json
  | obj (fields : List (List Char × Json)) : Json

mutual

/-- Canonical JSON text of a value, as `json.Marshal` produces it
(no whitespace; object fields in the given order). -/
def encVal : Json → List Char
  | .bool false => ['f', 'a', 'l', 's', 'e']
  | .bool true => ['t', 'r', 'u', 'e']
  | .null => ['n', 'u', 'l', 'l']
  | .num n => intChars n
  | .str s => encStr s
  | .arr items => '[' :: (encItems items ++ [']'])
  | .obj fields => '{' :: (encFields fields ++ ['}'])

/-- Comma-separated renderings of array items. -/
def encItems : List Json → List Char
  | [] => []
  | [v] => encVal v
  | v :: vs => encVal v ++ ',' :: encItems vs

/-- Comma-separated renderings of object fields. -/
def encFields : List (List Char × Json) → List Char
  | [] => []
  | [(k, v)] => encStr k ++ ':' :: encVal v
  | (k, v) :: kvs => encStr k ++ ':' :: encVal v ++ ',' :: encFields kvs

end

mutual

/-- Structural size of a JSON value, a fuel bound for the decoder. -/
def jsize : Json → Nat
  | .null => 1
  | .bool _ => 1
  | .num _ => 1
  | .str _ => 1
  | .arr items => 1 + jsizeItems items
  | .obj fields => 1 + jsizeFields fields

/-- Combined size of array items. -/
def jsizeItems : List Json → Nat
  | [] => 0
  | v :: vs => 1 + jsize v + jsizeItems vs

/-- Combined size of object fields. -/
def jsizeFields : List (List Char × Json) → Nat
  | [] => 0
  | (_, v) :: kvs => 1 + jsize v + jsizeFields kvs

end

mutual

/-- Fuel-based JSON value decoder over canonical (whitespace-free) text,
returning the value and the unconsumed remainder. -/
def parseVal : Nat → List Char → Option (Json × List Char)
  | 0, _ => none
  | _ + 1, [] => none
  | f + 1, c :: cs =>
    if c = 'n' then
      match cs with
      | 'u' :: 'l' :: 'l' :: r => some (.null, r)
      | _ => none
    else if c = 't' then
      match cs with
      | 'r' :: 'u' :: 'e' :: r => some (.bool true, r)
      | _ => none
    else if c = 'f' then
      match cs with
      | 'a' :: 'l' :: 's' :: 'e' :: r => some (.bool false, r)
      | _ => none
    else if c = '"' then
      match parseStrBody [] cs with
      | some (s, r) => some (.str s, r)
      | none => none
    else if c = '[' then
      match cs with
      | [] => none
      | c2 :: cs2 =>
        if c2 = ']' then some (.arr [], cs2)
        else
          match parseItems f (c2 :: cs2) with
          | some (vs, r) => some (.arr vs, r)
          | none => none
    else if c = '{' then
      match cs with
      | [] => none
      | c2 :: cs2 =>
        if c2 = '}' then some (.obj [], cs2)
        else
          match parseMembers f (c2 :: cs2) with
          | some (kvs, r) => some (.obj kvs, r)
          | none => none
    else if c = '-' then
      match digitRun cs with
      | ([], _) => none
      | (ds, r) => some (.num (-(digitsVal ds : Int)), r)
    else if isDigitChar c then
      match digitRun (c :: cs) with
      | (ds, r) => some (.num ((digitsVal ds : Int)), r)
    else none

/-- Decoder loop for the items of a non-empty array, after the `[`. -/
def parseItems : Nat → List Char → Option (List Json × List Char)
  | 0, _ => none
  | f + 1, s =>
    match parseVal f s with
    | none => none
    | some (v, r) =>
      match r with
      | ']' :: r2 => some ([v], r2)
      | ',' :: r2 =>
        match parseItems f r2 with
        | some (vs, r3) => some (v :: vs, r3)
        | none => none
      | _ => none

/-- Decoder loop for the fields of a non-empty object, after the `{`. -/
def parseMembers : Nat → List Char → Option (List (List Char × Json) × List Char)
  | 0, _ => none
  | f + 1, s =>
    match s with
    | '"' :: cs =>
      match parseStrBody [] cs with
      | none => none
      | some (k, r) =>
        match r with
        | ':' :: r2 =>
          match parseVal f r2 with
          | none => none
          | some (v, r3) =>
            match r3 with
            | '}' :: r4 => some ([(k, v)], r4)
            | ',' :: r4 =>
              match parseMembers f r4 with
              | some (kvs, r5) => some ((k, v) :: kvs, r5)
              | none => none
            | _ => none
        | _ => none
    | _ => none

end

/-- Absence of a leading decimal digit: what may legally follow a rendered
JSON number. -/
def noDigitHead (s : List Char) : Prop :=
  match s with
  | [] => True
  | c :: _ => isDigitChar c = false

/-- Whole-input JSON decode, as `json.Unmarshal` (which rejects trailing data). -/
def jsonDecode (s : List Char) : Option Json :=
  match parseVal (s.length + 1) s with
  | some (v, []) => some v
  | _ => none

/-! ## Socket.IO wire codec (internal/socketio/protocol.go) -/

/-- Split a character list at its first comma, if any. -/
def splitComma : List Char → Option (List Char × List Char)
  | [] => none
  | c :: cs =>
    if c = ',' then some ([], cs)
    else
      match splitComma cs with
      | none => none
      | some (a, b) => some (c :: a, b)

/-- Embeds `parseOptionalNamespace`: a payload that does not start with `/`,
or that has no comma, is in the root namespace; otherwise the namespace runs
up to (and excludes) the first comma. -/
def parseOptionalNamespace (s : List Char) : List Char × List Char :=
  match s with
  | [] => (['/'], [])
  | c :: cs =>
    if c = '/' then
      match splitComma (c :: cs) with
      | none => (['/'], c :: cs)
      | some (ns, rest) => (ns, rest)
    else (['/'], c :: cs)

/-- Embeds `parseOptionalIDPrefix`: the longest leading digit run is the ack
id; no digits, or an out-of-range `strconv.Atoi`, means no id. -/
def parseOptionalID (s : List Char) : Option Int × List Char :=
  match h : digitRun s with
  | ([], _) => (none, s)
  | (d :: ds, r) =>
    match atoiDigits (d :: ds) with
    | none => (none, s)
    | some v => (some v, r)

/-- A decoded Socket.IO EVENT packet. -/
structure socketEventPacket where
  Namespace : List Char
  ID : Option Int
  Event : List Char
  Args : List Json

/-- Embeds `parseSocketEventPacket` (errors collapsed to `none`). -/
def parseSocketEventPacket (payload : List Char) : Option socketEventPacket :=
  match payload with
  | [] => none
  | c :: rest0 =>
    if c ≠ '2' then none
    else
      let p1 := parseOptionalNamespace rest0
      let p2 := parseOptionalID p1.2
      match p2.2 with
      | '[' :: _ =>
        match jsonDecode p2.2 with
        | some (.arr items) =>
          match items with
          | [] => none
          | e :: args =>
            match e with
            | .str name => some ⟨p1.1, p2.1, name, args⟩
            | _ => none
        | _ => none
      | _ => none

/-- Embeds `buildSocketEventPacket`: type byte `2`, the namespace (with its
trailing comma) when not root, the ack id digits, then the JSON array whose
head is the event name. -/
def buildSocketEventPacket (nsp : List Char) (id : Option Int) (event : List Char)
    (args : List Json) : List Char :=
  '2' :: ((if nsp ≠ [] ∧ nsp ≠ ['/'] then nsp ++ [','] else [])
    ++ (match id with
        | some i => intChars i
        | none => [])
    ++ encVal (.arr (.str event :: args)))

/-- Embeds `buildSocketConnectPacket`: type byte `0`, optional namespace,
then the JSON object carrying the connection's sid. -/
def buildSocketConnectPacket (nsp : List Char) (sid : List Char) : List Char :=
  '0' :: ((if nsp ≠ [] ∧ nsp ≠ ['/'] then nsp ++ [','] else [])
    ++ encVal (.obj [(['s', 'i', 'd'], .str sid)]))

/-! ## Data model (internal/model/types.go) -/

/-- The `model.Session` record. -/
structure Session where
  ID : String
  UserID : String
  Tag : String
  Seq : Int
  Metadata : String
  MetadataVersion : Int
  AgentState : Option String
  AgentStateVersion : Int
  DataEncryptionKey : Option String
  Active : Bool
  ActiveAt : Int
  CreatedAt : Int
  UpdatedAt : Int
  Deleted : Bool
deriving DecidableEq

/-- The `model.SessionMessage` record. -/
structure SessionMessage where
  ID : String
  SessionID : String
  Seq : Int
  Content : String
  CreatedAt : Int
  UpdatedAt : Int
deriving DecidableEq

/-- The `model.Machine` record. -/
structure Machine where
  ID : String
  UserID : String
  Metadata : String
  MetadataVersion : Int
  DaemonState : Option String
  DaemonStateVersion : Int
  DataEncryptionKey : Option String
  CreatedAt : Int
  UpdatedAt : Int
deriving DecidableEq

/-- The `model.Artifact` record. -/
structure Artifact where
  ID : String
  UserID : String
  Header : String
  HeaderVersion : Int
  Body : String
  BodyVersion : Int
  DataEncryptionKey : String
  Seq : Int
  CreatedAt : Int
  UpdatedAt : Int
  Deleted : Bool
deriving DecidableEq

/-- The store's per-user `accountSettings` record (Go zero value: no blob,
version 0). -/
structure AccountSettings where
  Settings : Option String
  Version : Int
deriving DecidableEq

/-- The result record of `Store.UpdateArtifact`. -/
structure ArtifactUpdateResult where
  Success : Bool
  HeaderVersion : Option Int
  BodyVersion : Option Int
  CurrentHeaderVersion : Option Int
  CurrentBodyVersion : Option Int
  CurrentHeader : Option String
  CurrentBody : Option String
deriving DecidableEq

/-! ## The in-memory store (internal/store) -/

/-- A Go map with string keys. -/
def GoMap (α : Type) : Type := String → Option α

/-- Map write. -/
def GoMap.set {α : Type} (m : GoMap α) (k : String) (v : α) : GoMap α :=
  fun q => if q = k then some v else m q

/-- Map read with a zero value, as Go's indexing without the ok flag. -/
def GoMap.getZ {α : Type} (m : GoMap α) (k : String) (z : α) : α :=
  (m k).getD z

/-- Map deletion. -/
def GoMap.del {α : Type} (m : GoMap α) (k : String) : GoMap α :=
  fun q => if q = k then none else m q

/-- The empty map. -/
def GoMap.empty {α : Type} : GoMap α := fun _ => none

/-- The mutable state of `store.Store` (the `messages` and `seq` sub-components
inlined as their maps; persistence-file plumbing is an external sink and out
of the model). -/
structure Store where
  sessionsByID : GoMap Session
  sessionIDByUserTag : GoMap String
  machinesByID : GoMap Machine
  artifactsByKey : GoMap Artifact
  artifactSeq : Int
  accountSettingsByUserID : GoMap AccountSettings
  messagesData : GoMap (List SessionMessage)
  seqPerSession : GoMap Int

/-- A freshly constructed store (`store.New`). -/
def emptyStore : Store :=
  ⟨GoMap.empty, GoMap.empty, GoMap.empty, GoMap.empty, 0, GoMap.empty, GoMap.empty, GoMap.empty⟩

/-- Key of the session index by user and tag. -/
def userTagKey (userID tag : String) : String :=
  userID ++ "|" ++ tag

/-- Key of the artifact table. -/
def artifactKey (userID artifactID : String) : String :=
  userID ++ "|" ++ artifactID

/-- Embeds `Store.GetSession`: `none` when missing, foreign, or tombstoned. -/
def Store.GetSession (s : Store) (userID sessionID : String) : Option Session :=
  match s.sessionsByID sessionID with
  | none => none
  | some sess =>
    if sess.UserID ≠ userID ∨ sess.Deleted = true then none else some sess

/-- Embeds `Store.GetMachine`. -/
def Store.GetMachine (s : Store) (userID machineID : String) : Option Machine :=
  match s.machinesByID machineID with
  | none => none
  | some m => if m.UserID ≠ userID then none else some m

/-- A CAS reply triple `(status, version, value)` as the update methods
return it. -/
structure CasReply (α : Type) where
  status : String
  version : Int
  value : α
deriving DecidableEq

/-- Embeds `Store.UpdateSessionMetadata`. -/
def Store.UpdateSessionMetadata (s : Store) (userID sessionID : String)
    (expectedVersion : Int) (metadata : String) (now : Int) : Store × CasReply String :=
  match s.sessionsByID sessionID with
  | none => (s, ⟨"not-found", 0, ""⟩)
  | some sess =>
    if sess.UserID ≠ userID ∨ sess.Deleted = true then (s, ⟨"not-found", 0, ""⟩)
    else if expectedVersion ≠ sess.MetadataVersion then
      (s, ⟨"version-mismatch", sess.MetadataVersion, sess.Metadata⟩)
    else
      let sess2 := { sess with
        Metadata := metadata
        MetadataVersion := sess.MetadataVersion + 1
        UpdatedAt := now }
      ({ s with sessionsByID := s.sessionsByID.set sessionID sess2 },
        ⟨"success", sess2.MetadataVersion, sess2.Metadata⟩)

/-- Embeds `Store.UpdateSessionAgentState`. -/
def Store.UpdateSessionAgentState (s : Store) (userID sessionID : String)
    (expectedVersion : Int) (agentState : Option String) (now : Int) :
    Store × CasReply (Option String) :=
  match s.sessionsByID sessionID with
  | none => (s, ⟨"not-found", 0, none⟩)
  | some sess =>
    if sess.UserID ≠ userID ∨ sess.Deleted = true then (s, ⟨"not-found", 0, none⟩)
    else if expectedVersion ≠ sess.AgentStateVersion then
      (s, ⟨"version-mismatch", sess.AgentStateVersion, sess.AgentState⟩)
    else
      let sess2 := { sess with
        AgentState := agentState
        AgentStateVersion := sess.AgentStateVersion + 1
        UpdatedAt := now }
      ({ s with sessionsByID := s.sessionsByID.set sessionID sess2 },
        ⟨"success", sess2.AgentStateVersion, sess2.AgentState⟩)

/-- Embeds `Store.UpdateMachineMetadata` (the optional persistence snapshot
is an external sink and does not touch store state). -/
def Store.UpdateMachineMetadata (s : Store) (userID machineID : String)
    (expectedVersion : Int) (metadata : String) (now : Int) : Store × CasReply String :=
  match s.machinesByID machineID with
  | none => (s, ⟨"not-found", 0, ""⟩)
  | some m =>
    if m.UserID ≠ userID then (s, ⟨"not-found", 0, ""⟩)
    else if expectedVersion ≠ m.MetadataVersion then
      (s, ⟨"version-mismatch", m.MetadataVersion, m.Metadata⟩)
    else
      let m2 := { m with
        Metadata := metadata
        MetadataVersion := m.MetadataVersion + 1
        UpdatedAt := now }
      ({ s with machinesByID := s.machinesByID.set machineID m2 },
        ⟨"success", m2.MetadataVersion, m2.Metadata⟩)

/-- Embeds `Store.UpdateMachineDaemonState`. -/
def Store.UpdateMachineDaemonState (s : Store) (userID machineID : String)
    (expectedVersion : Int) (daemonState : Option String) (now : Int) :
    Store × CasReply (Option String) :=
  match s.machinesByID machineID with
  | none => (s, ⟨"not-found", 0, none⟩)
  | some m =>
    if m.UserID ≠ userID then (s, ⟨"not-found", 0, none⟩)
    else if expectedVersion ≠ m.DaemonStateVersion then
      (s, ⟨"version-mismatch", m.DaemonStateVersion, m.DaemonState⟩)
    else
      let m2 := { m with
        DaemonState := daemonState
        DaemonStateVersion := m.DaemonStateVersion + 1
        UpdatedAt := now }
      ({ s with machinesByID := s.machinesByID.set machineID m2 },
        ⟨"success", m2.DaemonStateVersion, m2.DaemonState⟩)

/-- Embeds `Store.UpdateAccountSettings` (reads the Go zero value for an
absent entry). -/
def Store.UpdateAccountSettings (s : Store) (userID : String) (expectedVersion : Int)
    (settings : String) (now : Int) : Store × CasReply (Option String) :=
  if userID = "" then (s, ⟨"error", 0, none⟩)
  else
    let st := s.accountSettingsByUserID.getZ userID ⟨none, 0⟩
    if expectedVersion ≠ st.Version then (s, ⟨"version-mismatch", st.Version, st.Settings⟩)
    else
      let st2 : AccountSettings := ⟨some settings, st.Version + 1⟩
      ({ s with accountSettingsByUserID := s.accountSettingsByUserID.set userID st2 },
        ⟨"success", st2.Version, st2.Settings⟩)

/-- Embeds `Store.UpsertMachine` (persistence snapshotting elided): a machine
id owned by another user is rejected, an owned one is merged field by field,
an unknown one is created with version 1 for each supplied field. -/
def Store.UpsertMachine (s : Store) (userID machineID metadata : String)
    (daemonState dataEncryptionKey : Option String) (now : Int) :
    Store × Except String (Machine × Bool) :=
  if machineID = "" then (s, .error "missing machine id")
  else
    match s.machinesByID machineID with
    | some existing =>
      if existing.UserID ≠ userID then (s, .error "machine belongs to another user")
      else
        let p1 :=
          if metadata ≠ "" ∧ metadata ≠ existing.Metadata then
            ({ existing with
                Metadata := metadata
                MetadataVersion := existing.MetadataVersion + 1 }, true)
          else (existing, false)
        let p2 :=
          match daemonState with
          | some ds =>
            if p1.1.DaemonState = none ∨ p1.1.DaemonState ≠ some ds then
              ({ p1.1 with
                  DaemonState := some ds
                  DaemonStateVersion := p1.1.DaemonStateVersion + 1 }, true)
            else (p1.1, false)
          | none => (p1.1, false)
        let p3 :=
          match dataEncryptionKey with
          | some _ => ({ p2.1 with DataEncryptionKey := dataEncryptionKey }, true)
          | none => (p2.1, false)
        if p1.2 ∨ p2.2 ∨ p3.2 then
          let m2 := { p3.1 with UpdatedAt := now }
          ({ s with machinesByID := s.machinesByID.set machineID m2 }, .ok (m2, false))
        else (s, .ok (p3.1, false))
    | none =>
      let m : Machine :=
        { ID := machineID
          UserID := userID
          Metadata := metadata
          MetadataVersion := if metadata ≠ "" then 1 else 0
          DaemonState := daemonState
          DaemonStateVersion := if daemonState ≠ none then 1 else 0
          DataEncryptionKey := dataEncryptionKey
          CreatedAt := now
          UpdatedAt := now }
      ({ s with machinesByID := s.machinesByID.set machineID m }, .ok (m, true))

/-- Embeds `messageStore.append` plus `seqGenerator.nextForSession` as used by
`Store.AppendMessage`; the message id comes from `uuid.NewString()` and is a
parameter. -/
def Store.AppendMessage (s : Store) (userID sessionID content : String)
    (msgID : String) (now : Int) : Store × Except String SessionMessage :=
  match s.GetSession userID sessionID with
  | none => (s, .error "session not found")
  | some _ =>
    let seq := s.seqPerSession.getZ sessionID 0 + 1
    let msg : SessionMessage :=
      { ID := msgID, SessionID := sessionID, Seq := seq, Content := content,
        CreatedAt := now, UpdatedAt := now }
    ({ s with
        seqPerSession := s.seqPerSession.set sessionID seq
        messagesData := s.messagesData.set sessionID
          (s.messagesData.getZ sessionID [] ++ [msg]) },
      .ok msg)

/-- Embeds `Store.CreateArtifact`: field validation, then idempotent return of
a live artifact, else creation at header/body version 1 with the next global
artifact seq. -/
def Store.CreateArtifact (s : Store) (userID artifactID header body dataEncryptionKey : String)
    (now : Int) : Store × Except String (Artifact × Bool) :=
  if userID = "" then (s, .error "missing user id")
  else if artifactID = "" then (s, .error "missing artifact id")
  else if header = "" ∨ body = "" ∨ dataEncryptionKey = "" then
    (s, .error "missing artifact fields")
  else
    let key := artifactKey userID artifactID
    let fresh : Artifact :=
      { ID := artifactID
        UserID := userID
        Header := header
        HeaderVersion := 1
        Body := body
        BodyVersion := 1
        DataEncryptionKey := dataEncryptionKey
        Seq := s.artifactSeq + 1
        CreatedAt := now
        UpdatedAt := now
        Deleted := false }
    let created := ({ s with
        artifactSeq := s.artifactSeq + 1
        artifactsByKey := s.artifactsByKey.set key fresh }, Except.ok (fresh, true))
    match s.artifactsByKey key with
    | some existing =>
      if existing.Deleted = false then (s, .ok (existing, false)) else created
    | none => created

/-- Embeds `Store.UpdateArtifact`: the header side is checked and applied to
the local copy first, then the body side; any failed check returns the local
copy's versions and values and leaves the stored artifact untouched. -/
def Store.UpdateArtifact (s : Store) (userID artifactID : String)
    (header : Option String) (expectedHeaderVersion : Option Int)
    (body : Option String) (expectedBodyVersion : Option Int) (now : Int) :
    Store × Except String ArtifactUpdateResult :=
  if userID = "" then (s, .error "missing user id")
  else if artifactID = "" then (s, .error "missing artifact id")
  else
    let key := artifactKey userID artifactID
    match s.artifactsByKey key with
    | none => (s, .error "artifact not found")
    | some a0 =>
      if a0.UserID ≠ userID ∨ a0.Deleted = true then (s, .error "artifact not found")
      else
        let headerStep : Artifact ⊕ ArtifactUpdateResult :=
          match header with
          | none => .inl a0
          | some h =>
            if expectedHeaderVersion = none ∨ expectedHeaderVersion ≠ some a0.HeaderVersion then
              .inr { Success := false
                     HeaderVersion := none
                     BodyVersion := none
                     CurrentHeaderVersion := some a0.HeaderVersion
                     CurrentBodyVersion := some a0.BodyVersion
                     CurrentHeader := some a0.Header
                     CurrentBody := some a0.Body }
            else .inl { a0 with Header := h, HeaderVersion := a0.HeaderVersion + 1 }
        match headerStep with
        | .inr r => (s, .ok r)
        | .inl a1 =>
          let bodyStep : Artifact ⊕ ArtifactUpdateResult :=
            match body with
            | none => .inl a1
            | some b =>
              if expectedBodyVersion = none ∨ expectedBodyVersion ≠ some a1.BodyVersion then
                .inr { Success := false
                       HeaderVersion := none
                       BodyVersion := none
                       CurrentHeaderVersion := some a1.HeaderVersion
                       CurrentBodyVersion := some a1.BodyVersion
                       CurrentHeader := some a1.Header
                       CurrentBody := some a1.Body }
              else .inl { a1 with Body := b, BodyVersion := a1.BodyVersion + 1 }
          match bodyStep with
          | .inr r => (s, .ok r)
          | .inl a2 =>
            let a3 := { a2 with UpdatedAt := now, Seq := s.artifactSeq + 1 }
            ({ s with
                artifactSeq := s.artifactSeq + 1
                artifactsByKey := s.artifactsByKey.set key a3 },
              .ok { Success := true
                    HeaderVersion := if header ≠ none then some a3.HeaderVersion else none
                    BodyVersion := if body ≠ none then some a3.BodyVersion else none
                    CurrentHeaderVersion := none
                    CurrentBodyVersion := none
                    CurrentHeader := none
                    CurrentBody := none })

/-! ## Traces of CAS updates, message appends, and machine operations -/

/-- A CAS-protected field of some entity. -/
inductive CasField where
  | sessionMetadata (sessionID : String)
  | sessionAgentState (sessionID : String)
  | machineMetadata (machineID : String)
  | machineDaemonState (machineID : String)
  | accountSettings (userID : String)
  | artifactHeader (key : String)
  | artifactBody (key : String)
deriving DecidableEq

/-- The stored version counter of a CAS-protected field (0 when the owning
entity is absent, matching the Go zero value). -/
def fieldVersion : CasField → Store → Int
  | .sessionMetadata sid, s => ((s.sessionsByID sid).map Session.MetadataVersion).getD 0
  | .sessionAgentState sid, s => ((s.sessionsByID sid).map Session.AgentStateVersion).getD 0
  | .machineMetadata mid, s => ((s.machinesByID mid).map Machine.MetadataVersion).getD 0
  | .machineDaemonState mid, s => ((s.machinesByID mid).map Machine.DaemonStateVersion).getD 0
  | .accountSettings uid, s => (s.accountSettingsByUserID.getZ uid ⟨none, 0⟩).Version
  | .artifactHeader key, s => ((s.artifactsByKey key).map Artifact.HeaderVersion).getD 0
  | .artifactBody key, s => ((s.artifactsByKey key).map Artifact.BodyVersion).getD 0

/-- One CAS update call, with its arguments. -/
inductive CasOp where
  | sessionMetadata (userID sessionID : String) (expectedVersion : Int) (metadata : String)
      (now : Int)
  | sessionAgentState (userID sessionID : String) (expectedVersion : Int)
      (agentState : Option String) (now : Int)
  | machineMetadata (userID machineID : String) (expectedVersion : Int) (metadata : String)
      (now : Int)
  | machineDaemonState (userID machineID : String) (expectedVersion : Int)
      (daemonState : Option String) (now : Int)
  | accountSettings (userID : String) (expectedVersion : Int) (settings : String) (now : Int)
  | artifact (userID artifactID : String) (header : Option String)
      (expectedHeaderVersion : Option Int) (body : Option String)
      (expectedBodyVersion : Option Int) (now : Int)

/-- The store state after one CAS update call. -/
def applyCasOp : CasOp → Store → Store
  | .sessionMetadata u sid k m now, s => (s.UpdateSessionMetadata u sid k m now).1
  | .sessionAgentState u sid k a now, s => (s.UpdateSessionAgentState u sid k a now).1
  | .machineMetadata u mid k m now, s => (s.UpdateMachineMetadata u mid k m now).1
  | .machineDaemonState u mid k d now, s => (s.UpdateMachineDaemonState u mid k d now).1
  | .accountSettings u k v now, s => (s.UpdateAccountSettings u k v now).1
  | .artifact u aid h ehv b ebv now, s => (s.UpdateArtifact u aid h ehv b ebv now).1

/-- Whether an artifact update call reports overall success. -/
def artifactUpdateOk (s : Store) (userID artifactID : String) (header : Option String)
    (expectedHeaderVersion : Option Int) (body : Option String)
    (expectedBodyVersion : Option Int) (now : Int) : Bool :=
  match (s.UpdateArtifact userID artifactID header expectedHeaderVersion body
      expectedBodyVersion now).2 with
  | .ok r => r.Success
  | .error _ => false

/-- Whether one CAS update call at state `s` successfully writes field `f`. -/
def casOpBumps (f : CasField) (op : CasOp) (s : Store) : Bool :=
  match f, op with
  | .sessionMetadata sid, .sessionMetadata u sid2 k m now =>
    decide (sid2 = sid ∧ (s.UpdateSessionMetadata u sid2 k m now).2.status = "success")
  | .sessionAgentState sid, .sessionAgentState u sid2 k a now =>
    decide (sid2 = sid ∧ (s.UpdateSessionAgentState u sid2 k a now).2.status = "success")
  | .machineMetadata mid, .machineMetadata u mid2 k m now =>
    decide (mid2 = mid ∧ (s.UpdateMachineMetadata u mid2 k m now).2.status = "success")
  | .machineDaemonState mid, .machineDaemonState u mid2 k d now =>
    decide (mid2 = mid ∧ (s.UpdateMachineDaemonState u mid2 k d now).2.status = "success")
  | .accountSettings uid, .accountSettings u k v now =>
    decide (u = uid ∧ (s.UpdateAccountSettings u k v now).2.status = "success")
  | .artifactHeader key, .artifact u aid h ehv b ebv now =>
    decide (artifactKey u aid = key ∧ h ≠ none) &&
      artifactUpdateOk s u aid h ehv b ebv now
  | .artifactBody key, .artifact u aid h ehv b ebv now =>
    decide (artifactKey u aid = key ∧ b ≠ none) &&
      artifactUpdateOk s u aid h ehv b ebv now
  | _, _ => false

/-- The store state after a sequence of CAS update calls. -/
def runCasOps : List CasOp → Store → Store
  | [], s => s
  | op :: ops, s => runCasOps ops (applyCasOp op s)

/-- How many calls of the sequence successfully write field `f`. -/
def casSuccesses (f : CasField) : List CasOp → Store → Nat
  | [], _ => 0
  | op :: ops, s => (if casOpBumps f op s then 1 else 0) + casSuccesses f ops (applyCasOp op s)

/-- One `AppendMessage` call, with its arguments. -/
structure AppendCall where
  userID : String
  sessionID : String
  content : String
  msgID : String
  now : Int

/-- The store state after a sequence of `AppendMessage` calls. -/
def runAppends : List AppendCall → Store → Store
  | [], s => s
  | a :: rest, s =>
    runAppends rest (Store.AppendMessage s a.userID a.sessionID a.content a.msgID a.now).1

/-- The `seq` values assigned to session `sid` by the successful calls of the
sequence, in call order. -/
def seqsAssigned (sid : String) : List AppendCall → Store → List Int
  | [], _ => []
  | a :: rest, s =>
    let r := Store.AppendMessage s a.userID a.sessionID a.content a.msgID a.now
    (match r.2 with
     | .ok msg => if a.sessionID = sid then [msg.Seq] else []
     | .error _ => []) ++ seqsAssigned sid rest r.1

/-- How many calls of the sequence successfully append to session `sid`. -/
def countAppendOk (sid : String) : List AppendCall → Store → Nat
  | [], _ => 0
  | a :: rest, s =>
    let r := Store.AppendMessage s a.userID a.sessionID a.content a.msgID a.now
    (match r.2 with
     | .ok _ => if a.sessionID = sid then 1 else 0
     | .error _ => 0) + countAppendOk sid rest r.1

/-- The integers `base+1, base+2, …, base+n`, in order. -/
def intRangeFrom (base : Int) : Nat → List Int
  | 0 => []
  | n + 1 => (base + 1) :: intRangeFrom (base + 1) n

/-- One store operation that can touch the machine table. -/
inductive MachineOp where
  | upsert (userID machineID metadata : String) (daemonState dataEncryptionKey : Option String)
      (now : Int)
  | updateMetadata (userID machineID : String) (expectedVersion : Int) (metadata : String)
      (now : Int)
  | updateDaemonState (userID machineID : String) (expectedVersion : Int)
      (daemonState : Option String) (now : Int)

/-- The store state after one machine operation. -/
def applyMachineOp : MachineOp → Store → Store
  | .upsert u mid m d k now, s => (s.UpsertMachine u mid m d k now).1
  | .updateMetadata u mid ev m now, s => (s.UpdateMachineMetadata u mid ev m now).1
  | .updateDaemonState u mid ev d now, s => (s.UpdateMachineDaemonState u mid ev d now).1

/-- The recorded owner of a machine id, if present. -/
def ownerOf (s : Store) (machineID : String) : Option String :=
  (s.machinesByID machineID).map Machine.UserID

/-- Every owner recorded for `machineID` at any point along the run of the
operation sequence (initial state included). -/
def ownersTrace (machineID : String) : List MachineOp → Store → List String
  | [], s => (ownerOf s machineID).toList
  | op :: ops, s => (ownerOf s machineID).toList ++ ownersTrace machineID ops (applyMachineOp op s)

/-! ## Decoding JSON into the handler argument structs (json.Unmarshal model) -/

/-- Field lookup in a decoded JSON object; a repeated key is overwritten by
later occurrences, as in `encoding/json`. -/
def jlookup (fields : List (List Char × Json)) (key : List Char) : Option Json :=
  match fields with
  | [] => none
  | (k, v) :: rest =>
    match jlookup rest key with
    | some r => some r
    | none => if k = key then some v else none

/-- Unmarshal of an optional object field into a Go `string` (absent or null
leaves the zero value; a non-string is a type error). -/
def goStringField : Option Json → Option String
  | none => some ""
  | some .null => some ""
  | some (.str s) => some (String.mk s)
  | some _ => none

/-- Unmarshal of an optional object field into a Go `int`. -/
def goIntField : Option Json → Option Int
  | none => some 0
  | some .null => some 0
  | some (.num n) => some n
  | some _ => none

/-- Unmarshal of an optional object field into a Go `*string`. -/
def goOptStringField : Option Json → Option (Option String)
  | none => some none
  | some .null => some none
  | some (.str s) => some (some (String.mk s))
  | some _ => none

/-- The `connectAuth` struct of the CONNECT payload. -/
structure connectAuth where
  Token : String
  ClientType : String
  SessionID : String
  MachineID : String
deriving DecidableEq

/-- Unmarshal of a JSON value into `connectAuth`. -/
def connectAuthOfJson : Json → Option connectAuth
  | .null => some ⟨"", "", "", ""⟩
  | .obj fields =>
    match goStringField (jlookup fields ['t', 'o', 'k', 'e', 'n']),
        goStringField (jlookup fields ['c', 'l', 'i', 'e', 'n', 't', 'T', 'y', 'p', 'e']),
        goStringField (jlookup fields ['s', 'e', 's', 's', 'i', 'o', 'n', 'I', 'd']),
        goStringField (jlookup fields ['m', 'a', 'c', 'h', 'i', 'n', 'e', 'I', 'd']) with
    | some t, some ct, some sid, some mid => some ⟨t, ct, sid, mid⟩
    | _, _, _, _ => none
  | _ => none

/-- Parse-then-unmarshal of the CONNECT payload's auth JSON. -/
def decodeConnectAuth (rest : List Char) : Option connectAuth :=
  match jsonDecode rest with
  | some v => connectAuthOfJson v
  | none => none

/-- The body struct of `update-metadata`. -/
structure SmuBody where
  SID : String
  ExpectedVersion : Int
  Metadata : String
deriving DecidableEq

/-- Unmarshal of a JSON value into the `update-metadata` body. -/
def smuBodyOfJson : Json → Option SmuBody
  | .null => some ⟨"", 0, ""⟩
  | .obj fields =>
    match goStringField (jlookup fields ['s', 'i', 'd']),
        goIntField (jlookup fields
          ['e', 'x', 'p', 'e', 'c', 't', 'e', 'd', 'V', 'e', 'r', 's', 'i', 'o', 'n']),
        goStringField (jlookup fields ['m', 'e', 't', 'a', 'd', 'a', 't', 'a']) with
    | some sid, some ev, some m => some ⟨sid, ev, m⟩
    | _, _, _ => none
  | _ => none

/-- The body struct of `update-state`. -/
structure SsuBody where
  SID : String
  ExpectedVersion : Int
  AgentState : Option String
deriving DecidableEq

/-- Unmarshal of a JSON value into the `update-state` body. -/
def ssuBodyOfJson : Json → Option SsuBody
  | .null => some ⟨"", 0, none⟩
  | .obj fields =>
    match goStringField (jlookup fields ['s', 'i', 'd']),
        goIntField (jlookup fields
          ['e', 'x', 'p', 'e', 'c', 't', 'e', 'd', 'V', 'e', 'r', 's', 'i', 'o', 'n']),
        goOptStringField (jlookup fields
          ['a', 'g', 'e', 'n', 't', 'S', 't', 'a', 't', 'e']) with
    | some sid, some ev, some a => some ⟨sid, ev, a⟩
    | _, _, _ => none
  | _ => none

/-- Decode of an event's first argument, as the handlers'
`len(pkt.Args) < 1 || json.Unmarshal(pkt.Args[0], &body) != nil` guard. -/
def decodeFirstArg {α : Type} (args : List Json) (dec : Json → Option α) : Option α :=
  match args with
  | [] => none
  | a :: _ => dec a

/-! ## Realtime server handlers (internal/socketio/server.go) -/

/-- Per-connection state the CONNECT flow reads and writes. -/
structure ConnRec where
  sid : String
  connected : Bool
  userID : String
  clientType : String
  sessionID : String
  machineID : String
deriving DecidableEq

/-- The three room indexes, as membership predicates over connection ids. -/
structure Rooms where
  roomUsers : String → Nat → Bool
  roomSessions : String → Nat → Bool
  roomMachines : String → Nat → Bool

/-- Embeds `Server.joinRoom` (an empty key joins nothing). -/
def joinRoom (room : String → Nat → Bool) (key : String) (cid : Nat) : String → Nat → Bool :=
  if key = "" then room
  else fun k c => if k = key ∧ c = cid then true else room k c

/-- The effects of `handleConnect` on one connection. -/
structure ConnectResult where
  conn : ConnRec
  rooms : Rooms
  writes : List (List Char)
  closed : Bool

/-- Embeds `conn.writeSocketError`: an `error` EVENT on the root namespace. -/
def errorEventWrite (msg : String) : List Char :=
  '4' :: buildSocketEventPacket ['/'] none ['e', 'r', 'r', 'o', 'r']
    [Json.obj [(['m', 'e', 's', 's', 'a', 'g', 'e'], .str msg.toList)]]

/-- Embeds `Server.handleConnect`. The token verifier is the external
dependency `auth.VerifyToken`, abstracted as `verify` returning the token's
user id; `cid` names this connection in the room indexes; `payload` is the
Socket.IO payload, whose first byte `0` was already dispatched on. -/
def handleConnect (verify : String → Option String) (st : Store) (rooms : Rooms)
    (cid : Nat) (c : ConnRec) (payload : List Char) : ConnectResult :=
  if c.connected then ⟨c, rooms, [], false⟩
  else
    let rest := (parseOptionalNamespace (payload.drop 1)).2
    if rest = [] then ⟨c, rooms, [errorEventWrite "Missing auth"], true⟩
    else
      match decodeConnectAuth rest with
      | none => ⟨c, rooms, [errorEventWrite "Invalid auth"], true⟩
      | some a =>
        if a.Token = "" then ⟨c, rooms, [errorEventWrite "Missing token"], true⟩
        else
          match verify a.Token with
          | none => ⟨c, rooms, [errorEventWrite "Invalid authentication token"], true⟩
          | some uid =>
            if uid = "" then ⟨c, rooms, [errorEventWrite "Invalid authentication token"], true⟩
            else if a.ClientType ≠ "user-scoped" ∧ a.ClientType ≠ "session-scoped" ∧
                a.ClientType ≠ "machine-scoped" then
              ⟨c, rooms, [errorEventWrite "Invalid client type"], true⟩
            else if a.ClientType = "session-scoped" ∧ a.SessionID = "" then
              ⟨c, rooms, [errorEventWrite "Missing sessionId"], true⟩
            else if a.ClientType = "session-scoped" ∧ st.GetSession uid a.SessionID = none then
              ⟨c, rooms, [errorEventWrite "Session not found"], true⟩
            else if a.ClientType = "machine-scoped" ∧ a.MachineID = "" then
              ⟨c, rooms, [errorEventWrite "Missing machineId"], true⟩
            else if a.ClientType = "machine-scoped" ∧ st.GetMachine uid a.MachineID = none then
              ⟨c, rooms, [errorEventWrite "Machine not found"], true⟩
            else
              let c2 := { c with
                userID := uid
                clientType := a.ClientType
                sessionID := a.SessionID
                machineID := a.MachineID
                connected := true }
              let r1 :=
                if c2.clientType = "user-scoped" then
                  { rooms with roomUsers := joinRoom rooms.roomUsers c2.userID cid }
                else rooms
              let r2 :=
                if c2.sessionID ≠ "" then
                  { r1 with roomSessions := joinRoom r1.roomSessions c2.sessionID cid }
                else r1
              let r3 :=
                if c2.machineID ≠ "" then
                  { r2 with roomMachines := joinRoom r2.roomMachines c2.machineID cid }
                else r2
              ⟨c2, r3, [['4', '0']], false⟩

/-- A target room of a broadcast. -/
inductive RoomKey where
  | user (userID : String)
  | session (sessionID : String)
  | machine (machineID : String)
deriving DecidableEq

/-- The `update` envelope `{id, seq, createdAt, body}`. -/
structure UpdateEnvelope where
  id : String
  seq : Int
  createdAt : Int
  body : Json

/-- JSON of a Go `*string`. -/
def jsonOfOptStr : Option String → Json
  | some v => .str v.toList
  | none => .null

/-- The envelope body `{t:"update-session", sid, metadata:{version, value}}`. -/
def sessionMetadataUpdateBody (sid : String) (version : Int) (value : String) : Json :=
  .obj [(['t'], .str ['u', 'p', 'd', 'a', 't', 'e', '-', 's', 'e', 's', 's', 'i', 'o', 'n']),
    (['s', 'i', 'd'], .str sid.toList),
    (['m', 'e', 't', 'a', 'd', 'a', 't', 'a'],
      .obj [(['v', 'e', 'r', 's', 'i', 'o', 'n'], .num version),
        (['v', 'a', 'l', 'u', 'e'], .str value.toList)])]

/-- The envelope body `{t:"update-session", sid, agentState:{version, value}}`. -/
def sessionAgentStateUpdateBody (sid : String) (version : Int) (value : Option String) : Json :=
  .obj [(['t'], .str ['u', 'p', 'd', 'a', 't', 'e', '-', 's', 'e', 's', 's', 'i', 'o', 'n']),
    (['s', 'i', 'd'], .str sid.toList),
    (['a', 'g', 'e', 'n', 't', 'S', 't', 'a', 't', 'e'],
      .obj [(['v', 'e', 'r', 's', 'i', 'o', 'n'], .num version),
        (['v', 'a', 'l', 'u', 'e'], jsonOfOptStr value)])]

/-- The CAS ack object `{result, version, <value key>: value}`. -/
def casAckJson (key : List Char) (status : String) (version : Int) (value : Json) : Json :=
  .obj [(['r', 'e', 's', 'u', 'l', 't'], .str status.toList),
    (['v', 'e', 'r', 's', 'i', 'o', 'n'], .num version),
    (key, value)]

/-- Embeds `Server.handleSessionMetadataUpdate`. Inputs: the envelope uuid,
store, global update seq, the calling connection's user, the packet's ack id
and args, and the wall time. Outputs: new store, new update seq, the acks
written to the caller (id and payload), and the broadcast envelopes with
their target rooms in broadcast order. -/
def handleSessionMetadataUpdate (uuid : String) (st : Store) (updateSeq : Int)
    (userID : String) (pktID : Option Int) (args : List Json) (now : Int) :
    Store × Int × List (Int × Json) × List (UpdateEnvelope × List RoomKey) :=
  match pktID with
  | none => (st, updateSeq, [], [])
  | some i =>
    match decodeFirstArg args smuBodyOfJson with
    | none => (st, updateSeq, [], [])
    | some body =>
      if body.SID = "" then (st, updateSeq, [], [])
      else
        let r := st.UpdateSessionMetadata userID body.SID body.ExpectedVersion body.Metadata now
        let ack := (i, casAckJson ['m', 'e', 't', 'a', 'd', 'a', 't', 'a']
          r.2.status r.2.version (.str r.2.value.toList))
        if r.2.status ≠ "success" then (r.1, updateSeq, [ack], [])
        else
          let env : UpdateEnvelope :=
            ⟨uuid, updateSeq + 1, now, sessionMetadataUpdateBody body.SID r.2.version r.2.value⟩
          (r.1, updateSeq + 1, [ack], [(env, [RoomKey.session body.SID, RoomKey.user userID])])

/-- Embeds `Server.handleSessionStateUpdate`. -/
def handleSessionStateUpdate (uuid : String) (st : Store) (updateSeq : Int)
    (userID : String) (pktID : Option Int) (args : List Json) (now : Int) :
    Store × Int × List (Int × Json) × List (UpdateEnvelope × List RoomKey) :=
  match pktID with
  | none => (st, updateSeq, [], [])
  | some i =>
    match decodeFirstArg args ssuBodyOfJson with
    | none => (st, updateSeq, [], [])
    | some body =>
      if body.SID = "" then (st, updateSeq, [], [])
      else
        let r := st.UpdateSessionAgentState userID body.SID body.ExpectedVersion body.AgentState now
        let ack := (i, casAckJson ['a', 'g', 'e', 'n', 't', 'S', 't', 'a', 't', 'e']
          r.2.status r.2.version (jsonOfOptStr r.2.value))
        if r.2.status ≠ "success" then (r.1, updateSeq, [ack], [])
        else
          let env : UpdateEnvelope :=
            ⟨uuid, updateSeq + 1, now, sessionAgentStateUpdateBody body.SID r.2.version r.2.value⟩
          (r.1, updateSeq + 1, [ack], [(env, [RoomKey.session body.SID, RoomKey.user userID])])

/-- Embeds `Server.handleRPCCall`. The inter-connection wait of
`emitWithAck` is concurrency and cannot run inside a pure model, so the
owner's reply (its ACK argument list, or the transport/timeout error) is a
parameter; `registered` is whether `rpcByMethod` holds an owner. A `null`
first element succeeds with the empty string: `json.Unmarshal` of JSON
`null` into a `string` leaves the zero value in place and returns no
error. -/
def handleRPCCall (registered : Bool) (ackResp : Except String (List Json)) :
    Except String String :=
  if registered = false then .error "Method not found"
  else
    match ackResp with
    | .error e => .error e
    | .ok resp =>
      match resp with
      | [] => .error "Empty response"
      | first :: _ =>
        match first with
        | .str s => .ok (String.mk s)
        | .null => .ok ""
        | _ => .error "Invalid response"

/-- The `rpc-call` ack object with `ok` plus `error` or `result`, built from
the call's outcome. -/
def rpcCallAckBody : Except String String → Json
  | .ok result =>
    .obj [(['o', 'k'], .bool true), (['r', 'e', 's', 'u', 'l', 't'], .str result.toList)]
  | .error e =>
    .obj [(['o', 'k'], .bool false), (['e', 'r', 'r', 'o', 'r'], .str e.toList)]

/-! ## Concrete fixtures used by counterexamples and witnesses -/

/-- A live artifact at header/body version 1, as `CreateArtifact` mints it. -/
def sampleArtifact : Artifact :=
  { ID := "a1", UserID := "u1", Header := "h1", HeaderVersion := 1, Body := "b1",
    BodyVersion := 1, DataEncryptionKey := "k1", Seq := 1, CreatedAt := 0, UpdatedAt := 0,
    Deleted := false }

/-- A store holding only `sampleArtifact`. -/
def storeA : Store :=
  { emptyStore with
    artifactSeq := 1
    artifactsByKey := GoMap.set GoMap.empty (artifactKey "u1" "a1") sampleArtifact }

/-- A live session of user `u1` with metadata version 1. -/
def sampleSession : Session :=
  { ID := "s1", UserID := "u1", Tag := "t1", Seq := 0, Metadata := "m1", MetadataVersion := 1,
    AgentState := none, AgentStateVersion := 0, DataEncryptionKey := none, Active := false,
    ActiveAt := 0, CreatedAt := 0, UpdatedAt := 0, Deleted := false }

/-- A store holding only `sampleSession`. -/
def storeS : Store :=
  { emptyStore with sessionsByID := GoMap.set GoMap.empty ("s1") sampleSession }

/-- A machine owned by user `u1`. -/
def sampleMachine : Machine :=
  { ID := "m1", UserID := "u1", Metadata := "mm", MetadataVersion := 1, DaemonState := none,
    DaemonStateVersion := 0, DataEncryptionKey := none, CreatedAt := 0, UpdatedAt := 0 }

/-- A store holding only `sampleMachine`. -/
def storeM : Store :=
  { emptyStore with machinesByID := GoMap.set GoMap.empty ("m1") sampleMachine }

/-- Empty room indexes. -/
def noRooms : Rooms :=
  ⟨fun _ _ => false, fun _ _ => false, fun _ _ => false⟩

/-- A connection that has not yet completed CONNECT. -/
def freshConn : ConnRec :=
  { sid := "S", connected := false, userID := "", clientType := "", sessionID := "",
    machineID := "" }

/-- A connection already in the CONNECTED state. -/
def liveConn : ConnRec :=
  { sid := "S", connected := true, userID := "u1", clientType := "user-scoped",
    sessionID := "", machineID := "" }

/-- A verifier accepting exactly the token `T` for user `u1`
(the token verifier is external to the core). -/
def sampleVerify : String → Option String :=
  fun t => if t = "T" then some "u1" else none

/-- The CONNECT payload `0` + auth JSON for a user-scoped client with token `T`. -/
def samplePayload : List Char :=
  '0' :: encVal (Json.obj
    [(['t', 'o', 'k', 'e', 'n'], .str ['T']),
     (['c', 'l', 'i', 'e', 'n', 't', 'T', 'y', 'p', 'e'],
       .str ['u', 's', 'e', 'r', '-', 's', 'c', 'o', 'p', 'e', 'd'])])

/-! # Theorems -/

/-! ## Map basics -/

theorem GoMap.get_set_self {α : Type} (m : GoMap α) (k : String) (v : α) :
    (m.set k v) k = some v := by
  simp [GoMap.set]

theorem GoMap.get_set_ne {α : Type} (m : GoMap α) (k q : String) (v : α) (h : q ≠ k) :
    (m.set k v) q = m q := by
  simp [GoMap.set, h]

/-! ## Decimal digit rendering and parsing -/

theorem natCharsAux_fuel : ∀ (f g n : Nat), n < f → n < g → natCharsAux f n = natCharsAux g n := by
  intro f
  induction f with
  | zero => omega
  | succ f ih =>
    intro g n hf hg
    cases g with
    | zero => omega
    | succ g =>
      simp only [natCharsAux]
      by_cases h10 : n < 10
      · simp [h10]
      · have hd : n / 10 < n := Nat.div_lt_self (by omega) (by omega)
        simp only [if_neg h10]
        rw [ih g (n / 10) (by omega) (by omega)]

theorem natChars_unfold (n : Nat) :
    natChars n = if n < 10 then [Char.ofNat (48 + n)]
      else natChars (n / 10) ++ [Char.ofNat (48 + n % 10)] := by
  have step : natCharsAux (n + 1) n = if n < 10 then [Char.ofNat (48 + n)]
      else natCharsAux n (n / 10) ++ [Char.ofNat (48 + n % 10)] := rfl
  by_cases h10 : n < 10
  · simp only [natChars, step, if_pos h10]
  · have hd : n / 10 < n := Nat.div_lt_self (by omega) (by omega)
    simp only [natChars, step, if_neg h10]
    rw [natCharsAux_fuel n (n / 10 + 1) (n / 10) (by omega) (by omega)]

theorem digitChar_toNat (k : Nat) (h : k < 10) : (Char.ofNat (48 + k)).toNat = 48 + k := by
  interval_cases k <;> decide

theorem digitChar_isDigit (k : Nat) (h : k < 10) : isDigitChar (Char.ofNat (48 + k)) = true := by
  interval_cases k <;> decide

theorem natChars_digits (n : Nat) : ∀ c ∈ natChars n, isDigitChar c = true := by
  induction n using Nat.strong_induction_on with
  | _ n ih =>
    rw [natChars_unfold]
    by_cases h10 : n < 10
    · simp only [if_pos h10, List.mem_singleton]
      intro c hc
      subst hc
      exact digitChar_isDigit n h10
    · simp only [if_neg h10]
      intro c hc
      rw [List.mem_append] at hc
      cases hc with
      | inl hmem => exact ih (n / 10) (Nat.div_lt_self (by omega) (by omega)) c hmem
      | inr hmem =>
        rw [List.mem_singleton] at hmem
        subst hmem
        exact digitChar_isDigit _ (Nat.mod_lt _ (by omega))

theorem natChars_ne_nil (n : Nat) : natChars n ≠ [] := by
  rw [natChars_unfold]
  split_ifs <;> simp

theorem digitsVal_append_last (ds : List Char) (c : Char) :
    digitsVal (ds ++ [c]) = 10 * digitsVal ds + (c.toNat - 48) := by
  simp [digitsVal, List.foldl_append]
  omega

theorem digitsVal_natChars (n : Nat) : digitsVal (natChars n) = n := by
  induction n using Nat.strong_induction_on with
  | _ n ih =>
    rw [natChars_unfold]
    by_cases h10 : n < 10
    · simp only [if_pos h10, digitsVal, List.foldl_cons, List.foldl_nil]
      rw [digitChar_toNat n h10]
      omega
    · simp only [if_neg h10]
      rw [digitsVal_append_last, ih (n / 10) (Nat.div_lt_self (by omega) (by omega)),
        digitChar_toNat _ (Nat.mod_lt _ (by omega))]
      omega

theorem digitRun_nodigit (s : List Char) (h : noDigitHead s) : digitRun s = ([], s) := by
  cases s with
  | nil => rfl
  | cons c cs =>
    simp only [noDigitHead] at h
    simp [digitRun, h]

theorem digitRun_append (ds rest : List Char) (hds : ∀ c ∈ ds, isDigitChar c = true)
    (hrest : noDigitHead rest) : digitRun (ds ++ rest) = (ds, rest) := by
  induction ds with
  | nil => simpa using digitRun_nodigit rest hrest
  | cons c t ih =>
    have hc := hds c (List.mem_cons_self c t)
    simp only [List.cons_append, digitRun, hc, if_pos]
    simp [ih (fun x hx => hds x (List.mem_cons_of_mem c hx))]

/-! ## JSON string escape round-trip -/

theorem hexDigitVal_hexDigitChar (k : Nat) (h : k < 16) :
    hexDigitVal (hexDigitChar k) = some k := by
  interval_cases k <;> decide

theorem parseStrBody_escChar (c : Char) (acc tail : List Char) :
    parseStrBody acc (escChar c ++ tail) = parseStrBody (c :: acc) tail := by
  by_cases h1 : c = '"'
  · subst h1
    rw [show escChar ('"') ++ tail = '\\' :: '"' :: tail from rfl, parseStrBody.eq_def]
    simp
  · by_cases h2 : c = '\\'
    · subst h2
      rw [show escChar ('\\') ++ tail = '\\' :: '\\' :: tail from rfl, parseStrBody.eq_def]
      simp
    · by_cases h3 : c.toNat < 32
      · have hv1 : hexDigitVal (hexDigitChar (c.toNat / 16)) = some (c.toNat / 16) :=
          hexDigitVal_hexDigitChar _ (by omega)
        have hv2 : hexDigitVal (hexDigitChar (c.toNat % 16)) = some (c.toNat % 16) :=
          hexDigitVal_hexDigitChar _ (by omega)
        have hres : ((0 * 16 + 0) * 16 + c.toNat / 16) * 16 + c.toNat % 16 = c.toNat := by
          omega
        have key : escChar c ++ tail = '\\' :: 'u' :: '0' :: '0' ::
            hexDigitChar (c.toNat / 16) :: hexDigitChar (c.toNat % 16) :: tail := by
          simp [escChar, h1, h2, h3]
        have hz : hexDigitVal ('0') = some 0 := by decide
        rw [key, parseStrBody.eq_def]
        simp [hv1, hv2, hz]
        have h4 : c.toNat / 16 * 16 + c.toNat % 16 = c.toNat := by omega
        rw [h4, Char.ofNat_toNat]
      · have key : escChar c ++ tail = c :: tail := by
          simp [escChar, h1, h2, h3]
        rw [key, parseStrBody.eq_def]
        simp [h1, h2]

theorem parseStrBody_enc (s : List Char) : ∀ (acc rest : List Char),
    parseStrBody acc (List.flatten (s.map escChar) ++ '"' :: rest) =
      some (acc.reverse ++ s, rest) := by
  induction s with
  | nil =>
    intro acc rest
    rw [show List.flatten (List.map escChar []) ++ '"' :: rest = '"' :: rest from rfl,
      parseStrBody.eq_def]
    simp
  | cons c t ih =>
    intro acc rest
    simp only [List.map_cons, List.flatten_cons, List.append_assoc]
    rw [parseStrBody_escChar, ih]
    simp

/-! ## JSON value round-trip -/

theorem digit_not_special (c : Char) (h : isDigitChar c = true) :
    c ≠ 'n' ∧ c ≠ 't' ∧ c ≠ 'f' ∧ c ≠ '"' ∧ c ≠ '[' ∧ c ≠ '{' ∧ c ≠ '-' := by
  refine ⟨?_, ?_, ?_, ?_, ?_, ?_, ?_⟩ <;>
    (intro hEq; subst hEq; exact absurd h (by decide))

theorem encVal_ne_nil (v : Json) : encVal v ≠ [] := by
  cases v with
  | null => simp [encVal]
  | bool b => cases b <;> simp [encVal]
  | num n =>
    simp only [encVal, intChars]
    split_ifs <;> simp [natChars_ne_nil]
  | str s => simp [encVal, encStr]
  | arr items => simp [encVal]
  | obj fields => simp [encVal]

theorem encVal_head_not_close (v : Json) (c : Char) (t : List Char) (h : encVal v = c :: t) :
    c ≠ ']' ∧ c ≠ '}' := by
  cases v with
  | null =>
    simp [encVal] at h
    obtain ⟨hc, -⟩ := h
    subst hc
    exact ⟨by decide, by decide⟩
  | bool b =>
    cases b <;>
      (simp [encVal] at h
       obtain ⟨hc, -⟩ := h
       subst hc
       exact ⟨by decide, by decide⟩)
  | num n =>
    by_cases hn : n < 0
    · simp [encVal, intChars, hn] at h
      obtain ⟨hc, -⟩ := h
      subst hc
      exact ⟨by decide, by decide⟩
    · simp only [encVal, intChars, if_neg hn] at h
      have hd : isDigitChar c = true := by
        apply natChars_digits n.toNat
        rw [h]
        exact List.mem_cons_self _ _
      constructor <;> (intro hEq; subst hEq; exact absurd hd (by decide))
  | str s =>
    simp [encVal, encStr] at h
    obtain ⟨hc, -⟩ := h
    subst hc
    exact ⟨by decide, by decide⟩
  | arr items =>
    simp [encVal] at h
    obtain ⟨hc, -⟩ := h
    subst hc
    exact ⟨by decide, by decide⟩
  | obj fields =>
    simp [encVal] at h
    obtain ⟨hc, -⟩ := h
    subst hc
    exact ⟨by decide, by decide⟩

theorem jsize_pos (v : Json) : 1 ≤ jsize v := by
  cases v <;> simp [jsize]

theorem encLen_all : ∀ n : Nat,
    (∀ v : Json, jsize v ≤ n → jsize v ≤ (encVal v).length)
    ∧ (∀ items : List Json, jsizeItems items ≤ n → jsizeItems items ≤ (encItems items).length + 1)
    ∧ (∀ kvs : List (List Char × Json), jsizeFields kvs ≤ n →
        jsizeFields kvs ≤ (encFields kvs).length + 1) := by
  intro n
  induction n with
  | zero =>
    refine ⟨?_, ?_, ?_⟩
    · intro v hv
      have := jsize_pos v
      omega
    · intro items h
      cases items with
      | nil => simp [jsizeItems]
      | cons v vs =>
        simp [jsizeItems] at h
    · intro kvs h
      cases kvs with
      | nil => simp [jsizeFields]
      | cons kv kvs =>
        obtain ⟨k, v⟩ := kv
        simp [jsizeFields] at h
  | succ n ih =>
    obtain ⟨ihV, ihI, ihF⟩ := ih
    refine ⟨?_, ?_, ?_⟩
    · intro v hv
      cases v with
      | null => simp [jsize, encVal]
      | bool b => cases b <;> simp [jsize, encVal]
      | num m =>
        have hlen : 1 ≤ (intChars m).length := by
          simp only [intChars]
          split_ifs with hm
          · simp
          · have := natChars_ne_nil m.toNat
            cases hx : natChars m.toNat with
            | nil => exact absurd hx this
            | cons a b => simp [hx]
        simpa [jsize, encVal] using hlen
      | str s => simp [jsize, encVal, encStr]
      | arr items =>
        have h2 : jsizeItems items ≤ n := by
          simp only [jsize] at hv
          omega
        have h3 := ihI items h2
        simp only [jsize, encVal, List.length_cons, List.length_append, List.length_singleton]
        omega
      | obj fields =>
        have h2 : jsizeFields fields ≤ n := by
          simp only [jsize] at hv
          omega
        have h3 := ihF fields h2
        simp only [jsize, encVal, List.length_cons, List.length_append, List.length_singleton]
        omega
    · intro items h
      cases items with
      | nil => simp [jsizeItems]
      | cons v vs =>
        have hjv : jsize v ≤ n := by
          simp only [jsizeItems] at h
          omega
        have h1 := ihV v hjv
        cases vs with
        | nil =>
          simp only [jsizeItems, jsizeItems, encItems]
          omega
        | cons v2 vs2 =>
          have hrest : jsizeItems (v2 :: vs2) ≤ n := by
            simp only [jsizeItems] at h ⊢
            omega
          have h2 := ihI (v2 :: vs2) hrest
          simp only [jsizeItems, encItems, List.length_append, List.length_cons] at h2 ⊢
          omega
    · intro kvs h
      cases kvs with
      | nil => simp [jsizeFields]
      | cons kv kvs2 =>
        obtain ⟨k, v⟩ := kv
        have hjv : jsize v ≤ n := by
          simp only [jsizeFields] at h
          omega
        have h1 := ihV v hjv
        cases kvs2 with
        | nil =>
          simp only [jsizeFields, jsizeFields, encFields, List.length_append, List.length_cons]
          omega
        | cons kv2 kvs3 =>
          have hrest : jsizeFields (kv2 :: kvs3) ≤ n := by
            obtain ⟨k2, v2⟩ := kv2
            simp only [jsizeFields] at h ⊢
            omega
          have h2 := ihF (kv2 :: kvs3) hrest
          simp only [jsizeFields, encFields, List.length_append, List.length_cons] at h2 ⊢
          omega

theorem jsize_le_encLen (v : Json) : jsize v ≤ (encVal v).length :=
  (encLen_all (jsize v)).1 v (le_refl _)

theorem parseVal_succ (f : Nat) (c : Char) (cs : List Char) :
    parseVal (f + 1) (c :: cs) =
    (if c = 'n' then
      match cs with
      | 'u' :: 'l' :: 'l' :: r => some (.null, r)
      | _ => none
    else if c = 't' then
      match cs with
      | 'r' :: 'u' :: 'e' :: r => some (.bool true, r)
      | _ => none
    else if c = 'f' then
      match cs with
      | 'a' :: 'l' :: 's' :: 'e' :: r => some (.bool false, r)
      | _ => none
    else if c = '"' then
      match parseStrBody [] cs with
      | some (s, r) => some (.str s, r)
      | none => none
    else if c = '[' then
      match cs with
      | [] => none
      | c2 :: cs2 =>
        if c2 = ']' then some (.arr [], cs2)
        else
          match parseItems f (c2 :: cs2) with
          | some (vs, r) => some (.arr vs, r)
          | none => none
    else if c = '{' then
      match cs with
      | [] => none
      | c2 :: cs2 =>
        if c2 = '}' then some (.obj [], cs2)
        else
          match parseMembers f (c2 :: cs2) with
          | some (kvs, r) => some (.obj kvs, r)
          | none => none
    else if c = '-' then
      match digitRun cs with
      | ([], _) => none
      | (ds, r) => some (.num (-(digitsVal ds : Int)), r)
    else if isDigitChar c then
      match digitRun (c :: cs) with
      | (ds, r) => some (.num ((digitsVal ds : Int)), r)
    else none) := rfl

theorem parseItems_succ (f : Nat) (s : List Char) :
    parseItems (f + 1) s =
    (match parseVal f s with
    | none => none
    | some (v, r) =>
      match r with
      | ']' :: r2 => some ([v], r2)
      | ',' :: r2 =>
        match parseItems f r2 with
        | some (vs, r3) => some (v :: vs, r3)
        | none => none
      | _ => none) := rfl

theorem parseMembers_succ (f : Nat) (s : List Char) :
    parseMembers (f + 1) s =
    (match s with
    | '"' :: cs =>
      match parseStrBody [] cs with
      | none => none
      | some (k, r) =>
        match r with
        | ':' :: r2 =>
          match parseVal f r2 with
          | none => none
          | some (v, r3) =>
            match r3 with
            | '}' :: r4 => some ([(k, v)], r4)
            | ',' :: r4 =>
              match parseMembers f r4 with
              | some (kvs, r5) => some ((k, v) :: kvs, r5)
              | none => none
            | _ => none
        | _ => none
    | _ => none) := rfl

theorem noDigitHead_cons (c : Char) (s : List Char) (h : isDigitChar c = false) :
    noDigitHead (c :: s) := h

theorem encItems_cons_tail (v : Json) (vs : List Json) :
    ∃ t, encItems (v :: vs) = encVal v ++ t := by
  cases vs with
  | nil => exact ⟨[], by simp [encItems]⟩
  | cons v2 vs2 => exact ⟨',' :: encItems (v2 :: vs2), rfl⟩

theorem encFields_cons_tail (k : List Char) (v : Json) (kvs : List (List Char × Json)) :
    ∃ t, encFields ((k, v) :: kvs) = encStr k ++ ':' :: (encVal v ++ t) := by
  cases kvs with
  | nil => exact ⟨[], by simp [encFields]⟩
  | cons kv2 kvs2 => exact ⟨',' :: encFields (kv2 :: kvs2), by simp [encFields]⟩

theorem parse_enc_all : ∀ fuel : Nat,
    (∀ (v : Json) (rest : List Char), jsize v ≤ fuel → noDigitHead rest →
      parseVal fuel (encVal v ++ rest) = some (v, rest))
    ∧ (∀ (items : List Json) (rest : List Char), items ≠ [] → jsizeItems items ≤ fuel →
      parseItems fuel (encItems items ++ ']' :: rest) = some (items, rest))
    ∧ (∀ (kvs : List (List Char × Json)) (rest : List Char), kvs ≠ [] →
      jsizeFields kvs ≤ fuel →
      parseMembers fuel (encFields kvs ++ '}' :: rest) = some (kvs, rest)) := by
  intro fuel
  induction fuel with
  | zero =>
    refine ⟨?_, ?_, ?_⟩
    · intro v rest hsz _
      have := jsize_pos v
      omega
    · intro items rest hne hsz
      cases items with
      | nil => exact absurd rfl hne
      | cons v vs =>
        simp [jsizeItems] at hsz
    · intro kvs rest hne hsz
      cases kvs with
      | nil => exact absurd rfl hne
      | cons kv kvs =>
        obtain ⟨k, v⟩ := kv
        simp [jsizeFields] at hsz
  | succ f ih =>
    obtain ⟨ihV, ihI, ihF⟩ := ih
    refine ⟨?_, ?_, ?_⟩
    · intro v rest hsz hnd
      cases v with
      | null =>
        rw [show encVal .null ++ rest = 'n' :: 'u' :: 'l' :: 'l' :: rest from rfl,
          parseVal_succ]
        simp
      | bool b =>
        cases b
        · rw [show encVal (.bool false) ++ rest = 'f' :: 'a' :: 'l' :: 's' :: 'e' :: rest
            from rfl, parseVal_succ]
          simp
        · rw [show encVal (.bool true) ++ rest = 't' :: 'r' :: 'u' :: 'e' :: rest from rfl,
            parseVal_succ]
          simp
      | str s =>
        rw [show encVal (.str s) ++ rest =
          '"' :: (List.flatten (s.map escChar) ++ '"' :: rest) from by
            simp [encVal, encStr], parseVal_succ]
        simp [parseStrBody_enc s [] rest]
      | num m =>
        by_cases hm : m < 0
        · obtain ⟨d, ds, hds⟩ := List.exists_cons_of_ne_nil (natChars_ne_nil m.natAbs)
          have hrun : digitRun (natChars m.natAbs ++ rest) = (natChars m.natAbs, rest) :=
            digitRun_append _ _ (natChars_digits _) hnd
          rw [hds] at hrun
          rw [show encVal (.num m) ++ rest = '-' :: (natChars m.natAbs ++ rest) from by
            simp [encVal, intChars, hm], hds, parseVal_succ]
          simp only [List.cons_append] at hrun ⊢
          simp [hrun]
          rw [← hds, digitsVal_natChars]
          omega
        · obtain ⟨d, ds, hds⟩ := List.exists_cons_of_ne_nil (natChars_ne_nil m.toNat)
          have hd : isDigitChar d = true := by
            apply natChars_digits m.toNat
            rw [hds]
            exact List.mem_cons_self _ _
          obtain ⟨h1, h2, h3, h4, h5, h6, h7⟩ := digit_not_special d hd
          have hrun : digitRun (natChars m.toNat ++ rest) = (natChars m.toNat, rest) :=
            digitRun_append _ _ (natChars_digits _) hnd
          rw [hds] at hrun
          rw [show encVal (.num m) ++ rest = natChars m.toNat ++ rest from by
            simp [encVal, intChars, hm], hds]
          rw [List.cons_append, parseVal_succ]
          simp only [List.cons_append] at hrun
          simp [h1, h2, h3, h4, h5, h6, h7, hd, hrun]
          rw [← hds, digitsVal_natChars]
          omega
      | arr items =>
        cases items with
        | nil =>
          rw [show encVal (.arr []) ++ rest = '[' :: ']' :: rest from by
            simp [encVal, encItems], parseVal_succ]
          simp
        | cons v vs =>
          have hsz2 : jsizeItems (v :: vs) ≤ f := by
            simp only [jsize] at hsz
            omega
          obtain ⟨c0, t0, hc0⟩ := List.exists_cons_of_ne_nil (encVal_ne_nil v)
          have hne0 := (encVal_head_not_close v c0 t0 hc0).1
          obtain ⟨tl, htl⟩ := encItems_cons_tail v vs
          have hx : encItems (v :: vs) ++ ']' :: rest = c0 :: (t0 ++ (tl ++ ']' :: rest)) := by
            rw [htl, hc0]
            simp [List.append_assoc]
          have hI := ihI (v :: vs) rest (by simp) hsz2
          rw [hx] at hI
          rw [show encVal (.arr (v :: vs)) ++ rest =
            '[' :: (encItems (v :: vs) ++ ']' :: rest) from by simp [encVal], hx,
            parseVal_succ]
          simp [hne0, hI]
      | obj fields =>
        cases fields with
        | nil =>
          rw [show encVal (.obj []) ++ rest = '{' :: '}' :: rest from by
            simp [encVal, encFields], parseVal_succ]
          simp
        | cons kv kvs =>
          obtain ⟨k, v⟩ := kv
          have hsz2 : jsizeFields ((k, v) :: kvs) ≤ f := by
            simp only [jsize] at hsz
            omega
          obtain ⟨tl, htl⟩ := encFields_cons_tail k v kvs
          have hx : encFields ((k, v) :: kvs) ++ '}' :: rest =
              '"' :: (List.flatten (k.map escChar) ++
                '"' :: (':' :: (encVal v ++ (tl ++ '}' :: rest)))) := by
            rw [htl]
            simp [encStr, List.append_assoc]
          have hF := ihF ((k, v) :: kvs) rest (by simp) hsz2
          rw [hx] at hF
          rw [show encVal (.obj ((k, v) :: kvs)) ++ rest =
            '{' :: (encFields ((k, v) :: kvs) ++ '}' :: rest) from by simp [encVal], hx,
            parseVal_succ]
          simp [hF]
    · intro items rest hne hsz
      cases items with
      | nil => exact absurd rfl hne
      | cons v vs =>
        have hjv : jsize v ≤ f := by
          simp only [jsizeItems] at hsz
          omega
        cases vs with
        | nil =>
          have hV := ihV v (']' :: rest) hjv (noDigitHead_cons _ _ rfl)
          rw [show encItems [v] ++ ']' :: rest = encVal v ++ ']' :: rest from by
            simp [encItems], parseItems_succ, hV]
          simp
        | cons v2 vs2 =>
          have hV := ihV v (',' :: (encItems (v2 :: vs2) ++ ']' :: rest)) hjv
            (noDigitHead_cons _ _ rfl)
          have hrest : jsizeItems (v2 :: vs2) ≤ f := by
            simp only [jsizeItems] at hsz ⊢
            omega
          have hI := ihI (v2 :: vs2) rest (by simp) hrest
          rw [show encItems (v :: v2 :: vs2) ++ ']' :: rest =
            encVal v ++ (',' :: (encItems (v2 :: vs2) ++ ']' :: rest)) from by
              rw [show encItems (v :: v2 :: vs2) =
                encVal v ++ ',' :: encItems (v2 :: vs2) from rfl]
              simp [List.append_assoc], parseItems_succ, hV]
          simp [hI]
    · intro kvs rest hne hsz
      cases kvs with
      | nil => exact absurd rfl hne
      | cons kv kvs2 =>
        obtain ⟨k, v⟩ := kv
        have hjv : jsize v ≤ f := by
          simp only [jsizeFields] at hsz
          omega
        cases kvs2 with
        | nil =>
          have hV := ihV v ('}' :: rest) hjv (noDigitHead_cons _ _ rfl)
          rw [show encFields [(k, v)] ++ '}' :: rest =
            '"' :: (List.flatten (k.map escChar) ++ '"' :: (':' :: (encVal v ++ '}' :: rest)))
            from by simp [encFields, encStr, List.append_assoc], parseMembers_succ]
          simp [parseStrBody_enc k [] (':' :: (encVal v ++ '}' :: rest)), hV]
        | cons kv2 kvs3 =>
          have hV := ihV v (',' :: (encFields (kv2 :: kvs3) ++ '}' :: rest)) hjv
            (noDigitHead_cons _ _ rfl)
          have hrest : jsizeFields (kv2 :: kvs3) ≤ f := by
            obtain ⟨k2, v2⟩ := kv2
            simp only [jsizeFields] at hsz ⊢
            omega
          have hF := ihF (kv2 :: kvs3) rest (by simp) hrest
          rw [show encFields ((k, v) :: kv2 :: kvs3) ++ '}' :: rest =
            '"' :: (List.flatten (k.map escChar) ++ '"' :: (':' :: (encVal v ++
              (',' :: (encFields (kv2 :: kvs3) ++ '}' :: rest))))) from by
              rw [show encFields ((k, v) :: kv2 :: kvs3) =
                encStr k ++ ':' :: encVal v ++ ',' :: encFields (kv2 :: kvs3) from rfl]
              simp [encStr, List.append_assoc], parseMembers_succ]
          simp [parseStrBody_enc k [] (':' :: (encVal v ++
            (',' :: (encFields (kv2 :: kvs3) ++ '}' :: rest)))), hV, hF]

theorem jsonDecode_encVal (v : Json) : jsonDecode (encVal v) = some v := by
  have h := (parse_enc_all ((encVal v).length + 1)).1 v []
    (le_trans (jsize_le_encLen v) (Nat.le_succ _)) trivial
  rw [List.append_nil] at h
  simp [jsonDecode, h]

/-! ## Claim C8 — EVENT packet wire round-trip -/

theorem splitComma_append (ns rest : List Char) (h : ',' ∉ ns) :
    splitComma (ns ++ ',' :: rest) = some (ns, rest) := by
  induction ns with
  | nil => simp [splitComma]
  | cons c cs ih =>
    have hc : ¬ (c = ',') := by
      intro hEq
      exact h (by rw [hEq]; exact List.mem_cons_self _ _)
    have h2 : ',' ∉ cs := fun hm => h (List.mem_cons_of_mem _ hm)
    simp [splitComma, hc, ih h2]

theorem parseOptionalNamespace_root (c : Char) (cs : List Char) (h : ¬ (c = '/')) :
    parseOptionalNamespace (c :: cs) = (['/'], c :: cs) := by
  simp [parseOptionalNamespace, h]

theorem parseOptionalNamespace_ns (nst rest : List Char) (h : ',' ∉ '/' :: nst) :
    parseOptionalNamespace (('/' :: nst) ++ ',' :: rest) = ('/' :: nst, rest) := by
  have hs := splitComma_append ('/' :: nst) rest h
  rw [show ('/' :: nst) ++ ',' :: rest = '/' :: (nst ++ ',' :: rest) from rfl] at hs ⊢
  simp [parseOptionalNamespace, hs]

theorem parseOptionalID_nodigit (c : Char) (cs : List Char) (h : isDigitChar c = false) :
    parseOptionalID (c :: cs) = (none, c :: cs) := by
  have hr : digitRun (c :: cs) = ([], c :: cs) := by simp [digitRun, h]
  unfold parseOptionalID
  split
  · rfl
  · rename_i d ds r heq
    rw [hr] at heq
    simp at heq

theorem parseOptionalID_digits (i : Int) (b : Char) (rest : List Char)
    (h0 : 0 ≤ i) (h1 : i ≤ maxGoInt) (hb : isDigitChar b = false) :
    parseOptionalID (intChars i ++ b :: rest) = (some i, b :: rest) := by
  have hic : intChars i = natChars i.toNat := by
    rw [intChars, if_neg (by omega)]
  have hrun : digitRun (natChars i.toNat ++ b :: rest) = (natChars i.toNat, b :: rest) :=
    digitRun_append _ _ (natChars_digits _) hb
  have hat : atoiDigits (natChars i.toNat) = some i := by
    rw [atoiDigits, digitsVal_natChars, if_pos (by omega)]
    have hti : (i.toNat : Int) = i := by omega
    rw [hti]
  obtain ⟨d, ds, hds⟩ := List.exists_cons_of_ne_nil (natChars_ne_nil i.toNat)
  rw [hic, hds]
  rw [hds] at hrun hat
  unfold parseOptionalID
  split
  · rename_i snd heq
    rw [hrun] at heq
    simp at heq
  · rename_i d2 ds2 r2 heq
    rw [hrun] at heq
    injection heq with ha hbx
    injection ha with h5 h6
    subst h5
    subst h6
    subst hbx
    rw [hat]

theorem parseSocketEventPacket_pieces (rest0 nsp mid : List Char) (id : Option Int)
    (event : List Char) (args : List Json)
    (h1 : parseOptionalNamespace rest0 = (nsp, mid))
    (h2 : parseOptionalID mid = (id, encVal (Json.arr (Json.str event :: args)))) :
    parseSocketEventPacket ('2' :: rest0) = some ⟨nsp, id, event, args⟩ := by
  have hjh : encVal (Json.arr (Json.str event :: args)) =
      '[' :: (encItems (Json.str event :: args) ++ [']']) := rfl
  have hjdec := jsonDecode_encVal (Json.arr (Json.str event :: args))
  rw [hjh] at h2 hjdec
  simp [parseSocketEventPacket, h1, h2, hjdec]

/-- C8: encoding an EVENT packet with `buildSocketEventPacket` and decoding the
result with `parseSocketEventPacket` returns the same namespace, ack id, event
name and argument list, for every namespace that starts with `/` and contains
no comma and every ack id representable in Go's `int`. -/
theorem c8_event_packet_roundtrip (nsp : List Char) (id : Option Int)
    (event : List Char) (args : List Json)
    (hhead : nsp.head? = some '/') (hcomma : ',' ∉ nsp)
    (hid : ∀ i, id = some i → 0 ≤ i ∧ i ≤ maxGoInt) :
    parseSocketEventPacket (buildSocketEventPacket nsp id event args) =
      some ⟨nsp, id, event, args⟩ := by
  obtain ⟨c0, nst, hns⟩ : ∃ c0 nst, nsp = c0 :: nst := by
    cases nsp with
    | nil => simp at hhead
    | cons a b => exact ⟨a, b, rfl⟩
  have hc0 : c0 = '/' := by
    rw [hns] at hhead
    simpa using hhead
  subst hc0
  subst hns
  have hbr : isDigitChar '[' = false := rfl
  by_cases hroot : nst = []
  · subst hroot
    cases id with
    | none =>
      have hb : buildSocketEventPacket ['/'] none event args =
          '2' :: encVal (Json.arr (Json.str event :: args)) := by
        simp [buildSocketEventPacket]
      rw [hb]
      refine parseSocketEventPacket_pieces _ _
        (encVal (Json.arr (Json.str event :: args))) _ _ _ ?_ ?_
      · rw [show encVal (Json.arr (Json.str event :: args)) =
          '[' :: (encItems (Json.str event :: args) ++ [']']) from rfl]
        exact parseOptionalNamespace_root _ _ (by decide)
      · rw [show encVal (Json.arr (Json.str event :: args)) =
          '[' :: (encItems (Json.str event :: args) ++ [']']) from rfl]
        exact parseOptionalID_nodigit _ _ hbr
    | some i =>
      obtain ⟨h0, h1⟩ := hid i rfl
      have hb : buildSocketEventPacket ['/'] (some i) event args =
          '2' :: (intChars i ++ encVal (Json.arr (Json.str event :: args))) := by
        simp [buildSocketEventPacket]
      rw [hb]
      obtain ⟨d, ds, hds⟩ : ∃ d ds, intChars i = d :: ds := by
        rw [intChars, if_neg (by omega)]
        exact List.exists_cons_of_ne_nil (natChars_ne_nil i.toNat)
      have hd : isDigitChar d = true := by
        have : d ∈ intChars i := by rw [hds]; exact List.mem_cons_self _ _
        rw [intChars, if_neg (by omega)] at this
        exact natChars_digits _ _ this
      have hdslash : ¬ (d = '/') := by
        intro hEq
        subst hEq
        exact absurd hd (by decide)
      refine parseSocketEventPacket_pieces _ _
        (intChars i ++ encVal (Json.arr (Json.str event :: args))) _ _ _ ?_ ?_
      · rw [hds, List.cons_append]
        exact parseOptionalNamespace_root _ _ hdslash
      · rw [show encVal (Json.arr (Json.str event :: args)) =
          '[' :: (encItems (Json.str event :: args) ++ [']']) from rfl]
        exact parseOptionalID_digits i '[' _ h0 h1 hbr
  · have hnsne : ('/' :: nst) ≠ ['/'] := by simp [hroot]
    cases id with
    | none =>
      have hb : buildSocketEventPacket ('/' :: nst) none event args =
          '2' :: (('/' :: nst) ++ ',' :: encVal (Json.arr (Json.str event :: args))) := by
        simp [buildSocketEventPacket, hnsne]
      rw [hb]
      refine parseSocketEventPacket_pieces _ _
        (encVal (Json.arr (Json.str event :: args))) _ _ _ ?_ ?_
      · exact parseOptionalNamespace_ns _ _ hcomma
      · rw [show encVal (Json.arr (Json.str event :: args)) =
          '[' :: (encItems (Json.str event :: args) ++ [']']) from rfl]
        exact parseOptionalID_nodigit _ _ hbr
    | some i =>
      obtain ⟨h0, h1⟩ := hid i rfl
      have hb : buildSocketEventPacket ('/' :: nst) (some i) event args =
          '2' :: (('/' :: nst) ++ ',' ::
            (intChars i ++ encVal (Json.arr (Json.str event :: args)))) := by
        simp [buildSocketEventPacket, hnsne]
      rw [hb]
      refine parseSocketEventPacket_pieces _ _
        (intChars i ++ encVal (Json.arr (Json.str event :: args))) _ _ _ ?_ ?_
      · exact parseOptionalNamespace_ns _ _ hcomma
      · rw [show encVal (Json.arr (Json.str event :: args)) =
          '[' :: (encItems (Json.str event :: args) ++ [']']) from rfl]
        exact parseOptionalID_digits i '[' _ h0 h1 hbr

/-- C8 witness: a concrete round-trip through the wire codec, namespace `/x`,
ack id 12, event `ping`, one numeric argument. -/
theorem c8_event_packet_roundtrip_w :
    parseSocketEventPacket (buildSocketEventPacket ['/', 'x'] (some 12)
      ['p', 'i', 'n', 'g'] [Json.num 3]) =
      some ⟨['/', 'x'], some 12, ['p', 'i', 'n', 'g'], [Json.num 3]⟩ :=
  c8_event_packet_roundtrip ['/', 'x'] (some 12) ['p', 'i', 'n', 'g'] [Json.num 3]
    (by decide) (by decide)
    (by
      intro i hi
      injection hi with h
      subst h
      decide)

/-! ## Claim C2 — CONNECT success flow and the CONNECT acknowledgement -/

/-- C2, counterexample: a successful CONNECT writes exactly the bare text
`40`, which is not the `0` CONNECT packet carrying the connection's sid
(`0\x7b"sid":"S"\x7d` behind the engine byte `4`): `handleConnect` never
calls `buildSocketConnectPacket`. -/
theorem c2_connect_ack_payload_cex :
    (handleConnect sampleVerify emptyStore noRooms 0 freshConn samplePayload).writes =
      [['4', '0']]
    ∧ ['4', '0'] ≠ '4' :: buildSocketConnectPacket ['/'] ['S'] := by
  constructor
  · rfl
  · decide

/-- C2, amended: for a not-yet-connected connection whose CONNECT payload
decodes to auth `a`, whose token verifies to a non-empty user id, whose
client type is one of the three valid scopes and whose scope checks pass,
`handleConnect` marks the connection connected with the auth's identity
fields, joins the user room (when user-scoped) and the session and machine
rooms (when the respective ids are non-empty), stays open, and writes the
single acknowledgement text `40` — not a `0` packet carrying the sid. -/
theorem c2_connect_success_flow (verify : String → Option String) (st : Store)
    (rooms : Rooms) (cid : Nat) (c : ConnRec) (payload : List Char)
    (a : connectAuth) (uid : String)
    (hconn : c.connected = false)
    (hrne : (parseOptionalNamespace (payload.drop 1)).2 ≠ [])
    (hdec : decodeConnectAuth (parseOptionalNamespace (payload.drop 1)).2 = some a)
    (htok : a.Token ≠ "")
    (hver : verify a.Token = some uid)
    (huid : uid ≠ "")
    (hct : a.ClientType = "user-scoped" ∨ a.ClientType = "session-scoped" ∨
      a.ClientType = "machine-scoped")
    (hsess : a.ClientType = "session-scoped" →
      a.SessionID ≠ "" ∧ st.GetSession uid a.SessionID ≠ none)
    (hmach : a.ClientType = "machine-scoped" →
      a.MachineID ≠ "" ∧ st.GetMachine uid a.MachineID ≠ none) :
    (handleConnect verify st rooms cid c payload).conn =
      { c with
        userID := uid
        clientType := a.ClientType
        sessionID := a.SessionID
        machineID := a.MachineID
        connected := true }
    ∧ (handleConnect verify st rooms cid c payload).writes = [['4', '0']]
    ∧ (handleConnect verify st rooms cid c payload).closed = false
    ∧ (a.ClientType = "user-scoped" →
        (handleConnect verify st rooms cid c payload).rooms.roomUsers uid cid = true)
    ∧ (a.SessionID ≠ "" →
        (handleConnect verify st rooms cid c payload).rooms.roomSessions a.SessionID cid
          = true)
    ∧ (a.MachineID ≠ "" →
        (handleConnect verify st rooms cid c payload).rooms.roomMachines a.MachineID cid
          = true) := by
  have hbody : handleConnect verify st rooms cid c payload =
      (let c2 := { c with
          userID := uid
          clientType := a.ClientType
          sessionID := a.SessionID
          machineID := a.MachineID
          connected := true }
        let r1 :=
          if c2.clientType = "user-scoped" then
            { rooms with roomUsers := joinRoom rooms.roomUsers c2.userID cid }
          else rooms
        let r2 :=
          if c2.sessionID ≠ "" then
            { r1 with roomSessions := joinRoom r1.roomSessions c2.sessionID cid }
          else r1
        let r3 :=
          if c2.machineID ≠ "" then
            { r2 with roomMachines := joinRoom r2.roomMachines c2.machineID cid }
          else r2
        (⟨c2, r3, [['4', '0']], false⟩ : ConnectResult)) := by
    simp only [List.drop_one] at hrne hdec
    rcases hct with hu | hs | hm
    · simp [handleConnect, hconn, hrne, hdec, htok, hver, huid, hu]
    · obtain ⟨h1, h2⟩ := hsess hs
      simp [handleConnect, hconn, hrne, hdec, htok, hver, huid, hs, h1, h2]
    · obtain ⟨h1, h2⟩ := hmach hm
      simp [handleConnect, hconn, hrne, hdec, htok, hver, huid, hm, h1, h2]
  rw [hbody]
  refine ⟨rfl, rfl, rfl, ?_, ?_, ?_⟩
  · intro hu
    simp only [hu]
    simp [joinRoom, huid]
    split_ifs <;> simp_all [joinRoom, huid]
  · intro hsid
    simp [joinRoom, hsid]
    split_ifs <;> simp_all [joinRoom]
  · intro hmid
    simp [joinRoom, hmid]

/-- C2 witness: the concrete user-scoped CONNECT fixture runs the amended
success flow. -/
theorem c2_connect_success_flow_w :
    (handleConnect sampleVerify emptyStore noRooms 0 freshConn samplePayload).conn =
      { freshConn with
        userID := "u1"
        clientType := "user-scoped"
        sessionID := ""
        machineID := ""
        connected := true }
    ∧ (handleConnect sampleVerify emptyStore noRooms 0 freshConn samplePayload).writes =
        [['4', '0']]
    ∧ (handleConnect sampleVerify emptyStore noRooms 0 freshConn samplePayload).closed =
        false
    ∧ ("user-scoped" = "user-scoped" →
        (handleConnect sampleVerify emptyStore noRooms 0 freshConn
          samplePayload).rooms.roomUsers "u1" 0 = true)
    ∧ ("" ≠ "" →
        (handleConnect sampleVerify emptyStore noRooms 0 freshConn
          samplePayload).rooms.roomSessions "" 0 = true)
    ∧ ("" ≠ "" →
        (handleConnect sampleVerify emptyStore noRooms 0 freshConn
          samplePayload).rooms.roomMachines "" 0 = true) :=
  c2_connect_success_flow sampleVerify emptyStore noRooms 0 freshConn samplePayload
    ⟨"T", "user-scoped", "", ""⟩ "u1" rfl (by decide) rfl (by decide) rfl (by decide)
    (Or.inl rfl) (by intro h; exact absurd h (by decide)) (by intro h; exact absurd h (by decide))

/-! ## Claim C10 — CreateArtifact on an existing live artifact -/

/-- C10, counterexample: `CreateArtifact` on an existing non-deleted artifact
does not ignore the supplied fields — an empty header fails validation with an
error instead of returning the existing artifact with `created = false`. -/
theorem c10_create_artifact_cex :
    Store.CreateArtifact storeA "u1" "a1" "" "b2" "k2" 7 =
      (storeA, .error "missing artifact fields")
    ∧ storeA.artifactsByKey (artifactKey "u1" "a1") = some sampleArtifact
    ∧ sampleArtifact.Deleted = false
    ∧ (Except.error "missing artifact fields" : Except String (Artifact × Bool)) ≠
        .ok (sampleArtifact, false) := by
  exact ⟨rfl, rfl, rfl, by simp⟩

/-- C10, amended: when the supplied identifiers, header, body, and data
encryption key are all non-empty, `CreateArtifact` on an existing non-deleted
artifact returns that artifact unchanged with `created = false` and leaves the
entire store (global artifact seq counter included) unchanged. -/
theorem c10_create_artifact_idempotent (s : Store)
    (userID artifactID header body dek : String) (now : Int) (a : Artifact)
    (hfound : s.artifactsByKey (artifactKey userID artifactID) = some a)
    (hlive : a.Deleted = false)
    (hu : userID ≠ "") (hid : artifactID ≠ "") (hh : header ≠ "") (hb : body ≠ "")
    (hk : dek ≠ "") :
    Store.CreateArtifact s userID artifactID header body dek now = (s, .ok (a, false)) := by
  simp [Store.CreateArtifact, hu, hid, hh, hb, hk, hfound, hlive]

/-- C10, witness: the amended theorem at a concrete store and call. -/
theorem c10_create_artifact_idempotent_w :
    Store.CreateArtifact storeA "u1" "a1" "h9" "b9" "k9" 7 = (storeA, .ok (sampleArtifact, false)) :=
  c10_create_artifact_idempotent storeA "u1" "a1" "h9" "b9" "k9" 7 sampleArtifact rfl rfl
    (by decide) (by decide) (by decide) (by decide) (by decide)

/-! ## Claim C9 — CONNECT on an already-connected connection -/

/-- C9: for a connection already CONNECTED, an inbound CONNECT packet is a
no-op — the connection record (userID, clientType, sessionID, machineID), the
room indexes, and the write stream are all unchanged, and the connection is
not closed. -/
theorem c9_connected_connect_noop (verify : String → Option String) (st : Store)
    (rooms : Rooms) (cid : Nat) (c : ConnRec) (payload : List Char)
    (hconn : c.connected = true) :
    handleConnect verify st rooms cid c payload = ⟨c, rooms, [], false⟩ := by
  simp [handleConnect, hconn]

/-- C9, witness: the theorem at a concrete connected connection. -/
theorem c9_connected_connect_noop_w :
    handleConnect sampleVerify emptyStore noRooms 0 liveConn samplePayload =
      ⟨liveConn, noRooms, [], false⟩ :=
  c9_connected_connect_noop sampleVerify emptyStore noRooms 0 liveConn samplePayload rfl

/-! ## Claim C6 — rpc-call ACK shape validation -/

/-- C6, counterexample: two non-conforming ACK shapes that do not surface as
`Invalid response` — an empty array surfaces as `Empty response`, and a
`null` first element succeeds with the empty-string result, because
`json.Unmarshal` of JSON `null` into a `string` is a no-op with no error. -/
theorem c6_rpc_empty_ack_cex :
    handleRPCCall true (.ok []) = .error "Empty response"
    ∧ ("Empty response" : String) ≠ "Invalid response"
    ∧ handleRPCCall true (.ok [Json.null]) = .ok "" :=
  ⟨rfl, by decide, rfl⟩

/-- C6, amended: with a registered owner, an empty ACK array yields
`{ok:false, error:"Empty response"}`; a `null` first element yields
`{ok:true, result:""}` (unmarshal into a string is a no-op); a first element
that is neither a string nor `null` yields `{ok:false, error:"Invalid
response"}`; a string first element yields `{ok:true, result:…}` even when
further elements follow. -/
theorem c6_rpc_ack_validation :
    (handleRPCCall true (.ok []) = .error "Empty response")
    ∧ (∀ rest : List Json, handleRPCCall true (.ok (Json.null :: rest)) = .ok "")
    ∧ (∀ (first : Json) (rest : List Json), first ≠ Json.null →
        (∀ s, first ≠ Json.str s) →
        handleRPCCall true (.ok (first :: rest)) = .error "Invalid response")
    ∧ (∀ (s : List Char) (rest : List Json),
        handleRPCCall true (.ok (Json.str s :: rest)) = .ok (String.mk s)) := by
  refine ⟨rfl, fun rest => rfl, ?_, fun s rest => rfl⟩
  intro first rest hnull hne
  cases first
  case null => exact absurd rfl hnull
  case str s => exact absurd rfl (hne s)
  all_goals rfl

/-- C6, witness: the amended theorem at a concrete numeric ACK element. -/
theorem c6_rpc_ack_validation_w :
    handleRPCCall true (.ok [Json.num 3]) = .error "Invalid response" :=
  c6_rpc_ack_validation.2.2.1 (Json.num 3) [] (fun h => Json.noConfusion h)
    (fun s h => Json.noConfusion h)

/-! ## Claim C3 — UpdateArtifact failure reporting and atomicity -/

/-- C3, counterexample: with the header check passing before the body check
fails, the failure result reports a header version of 2 and the new header,
while the stored artifact still has header version 1 — so the failure does
not carry the artifact's current versions and values. -/
theorem c3_artifact_failure_report_cex :
    (storeA.UpdateArtifact "u1" "a1" (some "h2") (some 1) (some "b2") (some 5) 9).2 =
      .ok ⟨false, none, none, some 2, some 1, some "h2", some "b1"⟩
    ∧ (storeA.UpdateArtifact "u1" "a1" (some "h2") (some 1) (some "b2") (some 5) 9).1 = storeA
    ∧ (storeA.artifactsByKey (artifactKey "u1" "a1")).map Artifact.HeaderVersion = some 1
    ∧ (storeA.artifactsByKey (artifactKey "u1" "a1")).map Artifact.Header = some "h1"
    ∧ (some 2 : Option Int) ≠ some 1
    ∧ (some "h2" : Option String) ≠ some "h1" := by
  exact ⟨rfl, rfl, rfl, rfl, by decide, by decide⟩

/-- C3, amended: both sides of an `UpdateArtifact` call are version-checked
independently and any failed check aborts the whole update with the stored
artifact completely unchanged; the failure result carries the artifact's
current versions and values when the header side failed (or was absent),
but when the header check passed before the body check failed, the reported
header version and value reflect the discarded header write. -/
theorem c3_artifact_cas_failure (s : Store) (u aid : String) (h b : Option String)
    (ehv ebv : Option Int) (now : Int) (a : Artifact)
    (hu : u ≠ "") (hid : aid ≠ "")
    (hfound : s.artifactsByKey (artifactKey u aid) = some a)
    (howner : a.UserID = u) (hlive : a.Deleted = false) :
    ((ehv = none ∨ ehv ≠ some a.HeaderVersion) → ∀ hv, h = some hv →
      s.UpdateArtifact u aid h ehv b ebv now =
        (s, .ok ⟨false, none, none, some a.HeaderVersion, some a.BodyVersion,
          some a.Header, some a.Body⟩))
    ∧ (h = none → (ebv = none ∨ ebv ≠ some a.BodyVersion) → ∀ bv, b = some bv →
      s.UpdateArtifact u aid h ehv b ebv now =
        (s, .ok ⟨false, none, none, some a.HeaderVersion, some a.BodyVersion,
          some a.Header, some a.Body⟩))
    ∧ (∀ hv bv, h = some hv → ehv = some a.HeaderVersion → b = some bv →
      (ebv = none ∨ ebv ≠ some a.BodyVersion) →
      s.UpdateArtifact u aid h ehv b ebv now =
        (s, .ok ⟨false, none, none, some (a.HeaderVersion + 1), some a.BodyVersion,
          some hv, some a.Body⟩)) := by
  refine ⟨?_, ?_, ?_⟩
  · intro hbad hv hh
    subst hh
    simp [Store.UpdateArtifact, hu, hid, hfound, howner, hlive, hbad]
  · intro hh hbad bv hb
    subst hh hb
    simp [Store.UpdateArtifact, hu, hid, hfound, howner, hlive, hbad]
  · intro hv bv hh hehv hb hbad
    subst hh hb hehv
    simp [Store.UpdateArtifact, hu, hid, hfound, howner, hlive, hbad]

/-- C3, witness: the amended theorem's mixed case at a concrete store. -/
theorem c3_artifact_cas_failure_w :
    storeA.UpdateArtifact "u1" "a1" (some "h2") (some 1) (some "b2") (some 5) 9 =
      (storeA, .ok ⟨false, none, none, some (sampleArtifact.HeaderVersion + 1),
        some sampleArtifact.BodyVersion, some "h2", some sampleArtifact.Body⟩) :=
  (c3_artifact_cas_failure storeA "u1" "a1" (some "h2") (some "b2") (some 1) (some 5) 9
      sampleArtifact (by decide) (by decide) rfl rfl rfl).2.2
    "h2" "b2" rfl rfl rfl (Or.inr (by decide))

/-! ## Claim C1 — CAS version discipline, step lemmas -/

/-- One `UpdateSessionMetadata` call moves every field version by exactly its
success indicator. -/
theorem fv_step_sessionMetadata (f : CasField) (u sid : String) (k : Int) (m : String)
    (now : Int) (s : Store) :
    fieldVersion f ((s.UpdateSessionMetadata u sid k m now).1) =
      fieldVersion f s + (if casOpBumps f (.sessionMetadata u sid k m now) s then 1 else 0) := by
  cases hx : s.sessionsByID sid with
  | none =>
    have hres : s.UpdateSessionMetadata u sid k m now = (s, ⟨"not-found", 0, ""⟩) := by
      simp [Store.UpdateSessionMetadata, hx]
    cases f <;> simp [hres, casOpBumps]
  | some sess =>
    by_cases hO : sess.UserID ≠ u ∨ sess.Deleted = true
    · have hres : s.UpdateSessionMetadata u sid k m now = (s, ⟨"not-found", 0, ""⟩) := by
        simp [Store.UpdateSessionMetadata, hx, hO]
      cases f <;> simp [hres, casOpBumps]
    · by_cases hV : k ≠ sess.MetadataVersion
      · have hres : s.UpdateSessionMetadata u sid k m now =
            (s, ⟨"version-mismatch", sess.MetadataVersion, sess.Metadata⟩) := by
          simp [Store.UpdateSessionMetadata, hx, hO, hV]
        cases f <;> simp [hres, casOpBumps]
      · have hres : s.UpdateSessionMetadata u sid k m now =
            ({ s with
                sessionsByID := s.sessionsByID.set sid ({ sess with
                  Metadata := m
                  MetadataVersion := sess.MetadataVersion + 1
                  UpdatedAt := now }) },
              ⟨"success", sess.MetadataVersion + 1, m⟩) := by
          simp [Store.UpdateSessionMetadata, hx, hO, hV]
        cases f with
        | sessionMetadata sid2 =>
          by_cases hs : sid2 = sid
          · subst hs
            simp [hres, casOpBumps, fieldVersion, GoMap.set, hx]
          · simp [hres, casOpBumps, fieldVersion, GoMap.set, hs, hx, Ne.symm hs]
        | sessionAgentState sid2 =>
          by_cases hs : sid2 = sid
          · subst hs
            simp [hres, casOpBumps, fieldVersion, GoMap.set, hx]
          · simp [hres, casOpBumps, fieldVersion, GoMap.set, hs]
        | machineMetadata mid => simp [hres, casOpBumps, fieldVersion]
        | machineDaemonState mid => simp [hres, casOpBumps, fieldVersion]
        | accountSettings uid => simp [hres, casOpBumps, fieldVersion, GoMap.getZ]
        | artifactHeader key => simp [hres, casOpBumps, fieldVersion]
        | artifactBody key => simp [hres, casOpBumps, fieldVersion]

/-- One `UpdateSessionAgentState` call moves every field version by exactly
its success indicator. -/
theorem fv_step_sessionAgentState (f : CasField) (u sid : String) (k : Int)
    (a : Option String) (now : Int) (s : Store) :
    fieldVersion f ((s.UpdateSessionAgentState u sid k a now).1) =
      fieldVersion f s +
        (if casOpBumps f (.sessionAgentState u sid k a now) s then 1 else 0) := by
  cases hx : s.sessionsByID sid with
  | none =>
    have hres : s.UpdateSessionAgentState u sid k a now = (s, ⟨"not-found", 0, none⟩) := by
      simp [Store.UpdateSessionAgentState, hx]
    cases f <;> simp [hres, casOpBumps]
  | some sess =>
    by_cases hO : sess.UserID ≠ u ∨ sess.Deleted = true
    · have hres : s.UpdateSessionAgentState u sid k a now = (s, ⟨"not-found", 0, none⟩) := by
        simp [Store.UpdateSessionAgentState, hx, hO]
      cases f <;> simp [hres, casOpBumps]
    · by_cases hV : k ≠ sess.AgentStateVersion
      · have hres : s.UpdateSessionAgentState u sid k a now =
            (s, ⟨"version-mismatch", sess.AgentStateVersion, sess.AgentState⟩) := by
          simp [Store.UpdateSessionAgentState, hx, hO, hV]
        cases f <;> simp [hres, casOpBumps]
      · have hres : s.UpdateSessionAgentState u sid k a now =
            ({ s with
                sessionsByID := s.sessionsByID.set sid ({ sess with
                  AgentState := a
                  AgentStateVersion := sess.AgentStateVersion + 1
                  UpdatedAt := now }) },
              ⟨"success", sess.AgentStateVersion + 1, a⟩) := by
          simp [Store.UpdateSessionAgentState, hx, hO, hV]
        cases f with
        | sessionMetadata sid2 =>
          by_cases hs : sid2 = sid
          · subst hs
            simp [hres, casOpBumps, fieldVersion, GoMap.set, hx]
          · simp [hres, casOpBumps, fieldVersion, GoMap.set, hs, hx]
        | sessionAgentState sid2 =>
          by_cases hs : sid2 = sid
          · subst hs
            simp [hres, casOpBumps, fieldVersion, GoMap.set, hx]
          · simp [hres, casOpBumps, fieldVersion, GoMap.set, hs, hx, Ne.symm hs]
        | machineMetadata mid => simp [hres, casOpBumps, fieldVersion]
        | machineDaemonState mid => simp [hres, casOpBumps, fieldVersion]
        | accountSettings uid => simp [hres, casOpBumps, fieldVersion, GoMap.getZ]
        | artifactHeader key => simp [hres, casOpBumps, fieldVersion]
        | artifactBody key => simp [hres, casOpBumps, fieldVersion]

/-- One `UpdateMachineMetadata` call moves every field version by exactly its
success indicator. -/
theorem fv_step_machineMetadata (f : CasField) (u mid : String) (k : Int) (m : String)
    (now : Int) (s : Store) :
    fieldVersion f ((s.UpdateMachineMetadata u mid k m now).1) =
      fieldVersion f s + (if casOpBumps f (.machineMetadata u mid k m now) s then 1 else 0) := by
  cases hx : s.machinesByID mid with
  | none =>
    have hres : s.UpdateMachineMetadata u mid k m now = (s, ⟨"not-found", 0, ""⟩) := by
      simp [Store.UpdateMachineMetadata, hx]
    cases f <;> simp [hres, casOpBumps]
  | some mm =>
    by_cases hO : mm.UserID ≠ u
    · have hres : s.UpdateMachineMetadata u mid k m now = (s, ⟨"not-found", 0, ""⟩) := by
        simp [Store.UpdateMachineMetadata, hx, hO]
      cases f <;> simp [hres, casOpBumps]
    · by_cases hV : k ≠ mm.MetadataVersion
      · have hres : s.UpdateMachineMetadata u mid k m now =
            (s, ⟨"version-mismatch", mm.MetadataVersion, mm.Metadata⟩) := by
          simp [Store.UpdateMachineMetadata, hx, hO, hV]
        cases f <;> simp [hres, casOpBumps]
      · have hres : s.UpdateMachineMetadata u mid k m now =
            ({ s with
                machinesByID := s.machinesByID.set mid ({ mm with
                  Metadata := m
                  MetadataVersion := mm.MetadataVersion + 1
                  UpdatedAt := now }) },
              ⟨"success", mm.MetadataVersion + 1, m⟩) := by
          simp [Store.UpdateMachineMetadata, hx, hO, hV]
        cases f with
        | sessionMetadata sid2 => simp [hres, casOpBumps, fieldVersion]
        | sessionAgentState sid2 => simp [hres, casOpBumps, fieldVersion]
        | machineMetadata mid2 =>
          by_cases hs : mid2 = mid
          · subst hs
            simp [hres, casOpBumps, fieldVersion, GoMap.set, hx]
          · simp [hres, casOpBumps, fieldVersion, GoMap.set, hs, hx, Ne.symm hs]
        | machineDaemonState mid2 =>
          by_cases hs : mid2 = mid
          · subst hs
            simp [hres, casOpBumps, fieldVersion, GoMap.set, hx]
          · simp [hres, casOpBumps, fieldVersion, GoMap.set, hs, hx]
        | accountSettings uid => simp [hres, casOpBumps, fieldVersion, GoMap.getZ]
        | artifactHeader key => simp [hres, casOpBumps, fieldVersion]
        | artifactBody key => simp [hres, casOpBumps, fieldVersion]

/-- One `UpdateMachineDaemonState` call moves every field version by exactly
its success indicator. -/
theorem fv_step_machineDaemonState (f : CasField) (u mid : String) (k : Int)
    (d : Option String) (now : Int) (s : Store) :
    fieldVersion f ((s.UpdateMachineDaemonState u mid k d now).1) =
      fieldVersion f s +
        (if casOpBumps f (.machineDaemonState u mid k d now) s then 1 else 0) := by
  cases hx : s.machinesByID mid with
  | none =>
    have hres : s.UpdateMachineDaemonState u mid k d now = (s, ⟨"not-found", 0, none⟩) := by
      simp [Store.UpdateMachineDaemonState, hx]
    cases f <;> simp [hres, casOpBumps]
  | some mm =>
    by_cases hO : mm.UserID ≠ u
    · have hres : s.UpdateMachineDaemonState u mid k d now = (s, ⟨"not-found", 0, none⟩) := by
        simp [Store.UpdateMachineDaemonState, hx, hO]
      cases f <;> simp [hres, casOpBumps]
    · by_cases hV : k ≠ mm.DaemonStateVersion
      · have hres : s.UpdateMachineDaemonState u mid k d now =
            (s, ⟨"version-mismatch", mm.DaemonStateVersion, mm.DaemonState⟩) := by
          simp [Store.UpdateMachineDaemonState, hx, hO, hV]
        cases f <;> simp [hres, casOpBumps]
      · have hres : s.UpdateMachineDaemonState u mid k d now =
            ({ s with
                machinesByID := s.machinesByID.set mid ({ mm with
                  DaemonState := d
                  DaemonStateVersion := mm.DaemonStateVersion + 1
                  UpdatedAt := now }) },
              ⟨"success", mm.DaemonStateVersion + 1, d⟩) := by
          simp [Store.UpdateMachineDaemonState, hx, hO, hV]
        cases f with
        | sessionMetadata sid2 => simp [hres, casOpBumps, fieldVersion]
        | sessionAgentState sid2 => simp [hres, casOpBumps, fieldVersion]
        | machineMetadata mid2 =>
          by_cases hs : mid2 = mid
          · subst hs
            simp [hres, casOpBumps, fieldVersion, GoMap.set, hx]
          · simp [hres, casOpBumps, fieldVersion, GoMap.set, hs, hx]
        | machineDaemonState mid2 =>
          by_cases hs : mid2 = mid
          · subst hs
            simp [hres, casOpBumps, fieldVersion, GoMap.set, hx]
          · simp [hres, casOpBumps, fieldVersion, GoMap.set, hs, hx, Ne.symm hs]
        | accountSettings uid => simp [hres, casOpBumps, fieldVersion, GoMap.getZ]
        | artifactHeader key => simp [hres, casOpBumps, fieldVersion]
        | artifactBody key => simp [hres, casOpBumps, fieldVersion]

/-- One `UpdateAccountSettings` call moves every field version by exactly its
success indicator. -/
theorem fv_step_accountSettings (f : CasField) (u : String) (k : Int) (v : String)
    (now : Int) (s : Store) :
    fieldVersion f ((s.UpdateAccountSettings u k v now).1) =
      fieldVersion f s + (if casOpBumps f (.accountSettings u k v now) s then 1 else 0) := by
  by_cases hu : u = ""
  · have hres : s.UpdateAccountSettings u k v now = (s, ⟨"error", 0, none⟩) := by
      simp [Store.UpdateAccountSettings, hu]
    cases f <;> simp [hres, casOpBumps]
  · by_cases hV : k ≠ (s.accountSettingsByUserID.getZ u ⟨none, 0⟩).Version
    · have hres : s.UpdateAccountSettings u k v now =
          (s, ⟨"version-mismatch", (s.accountSettingsByUserID.getZ u ⟨none, 0⟩).Version,
            (s.accountSettingsByUserID.getZ u ⟨none, 0⟩).Settings⟩) := by
        simp [Store.UpdateAccountSettings, hu, hV]
      cases f <;> simp [hres, casOpBumps]
    · have hres : s.UpdateAccountSettings u k v now =
          ({ s with
              accountSettingsByUserID := s.accountSettingsByUserID.set u
                ⟨some v, (s.accountSettingsByUserID.getZ u ⟨none, 0⟩).Version + 1⟩ },
            ⟨"success", (s.accountSettingsByUserID.getZ u ⟨none, 0⟩).Version + 1, some v⟩) := by
        simp [Store.UpdateAccountSettings, hu, hV]
      cases f with
      | sessionMetadata sid2 => simp [hres, casOpBumps, fieldVersion]
      | sessionAgentState sid2 => simp [hres, casOpBumps, fieldVersion]
      | machineMetadata mid2 => simp [hres, casOpBumps, fieldVersion]
      | machineDaemonState mid2 => simp [hres, casOpBumps, fieldVersion]
      | accountSettings uid =>
        by_cases hs : uid = u
        · subst hs
          simp [hres, casOpBumps, fieldVersion, GoMap.getZ, GoMap.set]
        · simp [hres, casOpBumps, fieldVersion, GoMap.getZ, GoMap.set, hs, Ne.symm hs]
      | artifactHeader key => simp [hres, casOpBumps, fieldVersion]
      | artifactBody key => simp [hres, casOpBumps, fieldVersion]

/-- One `UpdateArtifact` call moves every field version by exactly its
per-side success indicator. -/
theorem fv_step_artifact (f : CasField) (u aid : String) (h : Option String)
    (ehv : Option Int) (b : Option String) (ebv : Option Int) (now : Int) (s : Store) :
    fieldVersion f ((s.UpdateArtifact u aid h ehv b ebv now).1) =
      fieldVersion f s +
        (if casOpBumps f (.artifact u aid h ehv b ebv now) s then 1 else 0) := by
  by_cases hu : u = ""
  · have hres : s.UpdateArtifact u aid h ehv b ebv now = (s, .error "missing user id") := by
      simp [Store.UpdateArtifact, hu]
    cases f <;> simp [hres, casOpBumps, artifactUpdateOk]
  · by_cases hid : aid = ""
    · have hres : s.UpdateArtifact u aid h ehv b ebv now =
          (s, .error "missing artifact id") := by
        simp [Store.UpdateArtifact, hu, hid]
      cases f <;> simp [hres, casOpBumps, artifactUpdateOk]
    · cases hx : s.artifactsByKey (artifactKey u aid) with
      | none =>
        have hres : s.UpdateArtifact u aid h ehv b ebv now =
            (s, .error "artifact not found") := by
          simp [Store.UpdateArtifact, hu, hid, hx]
        cases f <;> simp [hres, casOpBumps, artifactUpdateOk]
      | some a0 =>
        by_cases hO : a0.UserID ≠ u ∨ a0.Deleted = true
        · have hres : s.UpdateArtifact u aid h ehv b ebv now =
              (s, .error "artifact not found") := by
            simp [Store.UpdateArtifact, hu, hid, hx, hO]
          cases f <;> simp [hres, casOpBumps, artifactUpdateOk]
        · cases h with
          | some hv =>
            by_cases hhv : ehv = none ∨ ehv ≠ some a0.HeaderVersion
            · have hres : s.UpdateArtifact u aid (some hv) ehv b ebv now =
                  (s, .ok ⟨false, none, none, some a0.HeaderVersion, some a0.BodyVersion,
                    some a0.Header, some a0.Body⟩) := by
                simp [Store.UpdateArtifact, hu, hid, hx, hO, hhv]
              cases f <;> simp [hres, casOpBumps, artifactUpdateOk]
            · cases b with
              | some bv =>
                by_cases hbv : ebv = none ∨ ebv ≠ some a0.BodyVersion
                · have hres : s.UpdateArtifact u aid (some hv) ehv (some bv) ebv now =
                      (s, .ok ⟨false, none, none, some (a0.HeaderVersion + 1),
                        some a0.BodyVersion, some hv, some a0.Body⟩) := by
                    simp [Store.UpdateArtifact, hu, hid, hx, hO, hhv, hbv]
                  cases f <;> simp [hres, casOpBumps, artifactUpdateOk]
                · have hres : s.UpdateArtifact u aid (some hv) ehv (some bv) ebv now =
                      ({ s with
                          artifactSeq := s.artifactSeq + 1
                          artifactsByKey := s.artifactsByKey.set (artifactKey u aid)
                            ({ a0 with
                              Header := hv
                              HeaderVersion := a0.HeaderVersion + 1
                              Body := bv
                              BodyVersion := a0.BodyVersion + 1
                              UpdatedAt := now
                              Seq := s.artifactSeq + 1 }) },
                        .ok ⟨true, some (a0.HeaderVersion + 1), some (a0.BodyVersion + 1),
                          none, none, none, none⟩) := by
                    simp [Store.UpdateArtifact, hu, hid, hx, hO, hhv, hbv]
                  cases f with
                  | sessionMetadata sid2 => simp [hres, casOpBumps, fieldVersion]
                  | sessionAgentState sid2 => simp [hres, casOpBumps, fieldVersion]
                  | machineMetadata mid2 => simp [hres, casOpBumps, fieldVersion]
                  | machineDaemonState mid2 => simp [hres, casOpBumps, fieldVersion]
                  | accountSettings uid2 => simp [hres, casOpBumps, fieldVersion, GoMap.getZ]
                  | artifactHeader key2 =>
                    by_cases hk : artifactKey u aid = key2
                    · subst hk
                      simp [hres, casOpBumps, artifactUpdateOk, fieldVersion, GoMap.set, hx]
                    · simp [hres, casOpBumps, artifactUpdateOk, fieldVersion, GoMap.set, hk,
                        Ne.symm hk, hx]
                  | artifactBody key2 =>
                    by_cases hk : artifactKey u aid = key2
                    · subst hk
                      simp [hres, casOpBumps, artifactUpdateOk, fieldVersion, GoMap.set, hx]
                    · simp [hres, casOpBumps, artifactUpdateOk, fieldVersion, GoMap.set, hk,
                        Ne.symm hk, hx]
              | none =>
                have hres : s.UpdateArtifact u aid (some hv) ehv none ebv now =
                    ({ s with
                        artifactSeq := s.artifactSeq + 1
                        artifactsByKey := s.artifactsByKey.set (artifactKey u aid)
                          ({ a0 with
                            Header := hv
                            HeaderVersion := a0.HeaderVersion + 1
                            UpdatedAt := now
                            Seq := s.artifactSeq + 1 }) },
                      .ok ⟨true, some (a0.HeaderVersion + 1), none, none, none, none, none⟩) := by
                  simp [Store.UpdateArtifact, hu, hid, hx, hO, hhv]
                cases f with
                | sessionMetadata sid2 => simp [hres, casOpBumps, fieldVersion]
                | sessionAgentState sid2 => simp [hres, casOpBumps, fieldVersion]
                | machineMetadata mid2 => simp [hres, casOpBumps, fieldVersion]
                | machineDaemonState mid2 => simp [hres, casOpBumps, fieldVersion]
                | accountSettings uid2 => simp [hres, casOpBumps, fieldVersion, GoMap.getZ]
                | artifactHeader key2 =>
                  by_cases hk : artifactKey u aid = key2
                  · subst hk
                    simp [hres, casOpBumps, artifactUpdateOk, fieldVersion, GoMap.set, hx]
                  · simp [hres, casOpBumps, artifactUpdateOk, fieldVersion, GoMap.set, hk,
                      Ne.symm hk, hx]
                | artifactBody key2 =>
                  by_cases hk : artifactKey u aid = key2
                  · subst hk
                    simp [hres, casOpBumps, artifactUpdateOk, fieldVersion, GoMap.set, hx]
                  · simp [hres, casOpBumps, artifactUpdateOk, fieldVersion, GoMap.set, hk,
                      Ne.symm hk, hx]
          | none =>
            cases b with
            | some bv =>
              by_cases hbv : ebv = none ∨ ebv ≠ some a0.BodyVersion
              · have hres : s.UpdateArtifact u aid none ehv (some bv) ebv now =
                    (s, .ok ⟨false, none, none, some a0.HeaderVersion, some a0.BodyVersion,
                      some a0.Header, some a0.Body⟩) := by
                  simp [Store.UpdateArtifact, hu, hid, hx, hO, hbv]
                cases f <;> simp [hres, casOpBumps, artifactUpdateOk]
              · have hres : s.UpdateArtifact u aid none ehv (some bv) ebv now =
                    ({ s with
                        artifactSeq := s.artifactSeq + 1
                        artifactsByKey := s.artifactsByKey.set (artifactKey u aid)
                          ({ a0 with
                            Body := bv
                            BodyVersion := a0.BodyVersion + 1
                            UpdatedAt := now
                            Seq := s.artifactSeq + 1 }) },
                      .ok ⟨true, none, some (a0.BodyVersion + 1), none, none, none, none⟩) := by
                  simp [Store.UpdateArtifact, hu, hid, hx, hO, hbv]
                cases f with
                | sessionMetadata sid2 => simp [hres, casOpBumps, fieldVersion]
                | sessionAgentState sid2 => simp [hres, casOpBumps, fieldVersion]
                | machineMetadata mid2 => simp [hres, casOpBumps, fieldVersion]
                | machineDaemonState mid2 => simp [hres, casOpBumps, fieldVersion]
                | accountSettings uid2 => simp [hres, casOpBumps, fieldVersion, GoMap.getZ]
                | artifactHeader key2 =>
                  by_cases hk : artifactKey u aid = key2
                  · subst hk
                    simp [hres, casOpBumps, artifactUpdateOk, fieldVersion, GoMap.set, hx]
                  · simp [hres, casOpBumps, artifactUpdateOk, fieldVersion, GoMap.set, hk,
                      Ne.symm hk, hx]
                | artifactBody key2 =>
                  by_cases hk : artifactKey u aid = key2
                  · subst hk
                    simp [hres, casOpBumps, artifactUpdateOk, fieldVersion, GoMap.set, hx]
                  · simp [hres, casOpBumps, artifactUpdateOk, fieldVersion, GoMap.set, hk,
                      Ne.symm hk, hx]
            | none =>
              have hres : s.UpdateArtifact u aid none ehv none ebv now =
                  ({ s with
                      artifactSeq := s.artifactSeq + 1
                      artifactsByKey := s.artifactsByKey.set (artifactKey u aid)
                        ({ a0 with
                          UpdatedAt := now
                          Seq := s.artifactSeq + 1 }) },
                    .ok ⟨true, none, none, none, none, none, none⟩) := by
                simp [Store.UpdateArtifact, hu, hid, hx, hO]
              cases f with
              | sessionMetadata sid2 => simp [hres, casOpBumps, fieldVersion]
              | sessionAgentState sid2 => simp [hres, casOpBumps, fieldVersion]
              | machineMetadata mid2 => simp [hres, casOpBumps, fieldVersion]
              | machineDaemonState mid2 => simp [hres, casOpBumps, fieldVersion]
              | accountSettings uid2 => simp [hres, casOpBumps, fieldVersion, GoMap.getZ]
              | artifactHeader key2 =>
                by_cases hk : artifactKey u aid = key2
                · subst hk
                  simp [hres, casOpBumps, artifactUpdateOk, fieldVersion, GoMap.set, hx]
                · simp [hres, casOpBumps, artifactUpdateOk, fieldVersion, GoMap.set, hk,
                    Ne.symm hk, hx]
              | artifactBody key2 =>
                by_cases hk : artifactKey u aid = key2
                · subst hk
                  simp [hres, casOpBumps, artifactUpdateOk, fieldVersion, GoMap.set, hx]
                · simp [hres, casOpBumps, artifactUpdateOk, fieldVersion, GoMap.set, hk,
                    Ne.symm hk, hx]

/-- One CAS update call moves every field version by exactly its success
indicator. -/
theorem fieldVersion_step (f : CasField) (op : CasOp) (s : Store) :
    fieldVersion f (applyCasOp op s) =
      fieldVersion f s + (if casOpBumps f op s then 1 else 0) := by
  cases op with
  | sessionMetadata u sid k m now => exact fv_step_sessionMetadata f u sid k m now s
  | sessionAgentState u sid k a now => exact fv_step_sessionAgentState f u sid k a now s
  | machineMetadata u mid k m now => exact fv_step_machineMetadata f u mid k m now s
  | machineDaemonState u mid k d now => exact fv_step_machineDaemonState f u mid k d now s
  | accountSettings u k v now => exact fv_step_accountSettings f u k v now s
  | artifact u aid h ehv b ebv now => exact fv_step_artifact f u aid h ehv b ebv now s

/-- The version of a CAS field after a run of update calls is its initial
version plus the number of calls that successfully wrote it. -/
theorem fieldVersion_run (f : CasField) : ∀ (ops : List CasOp) (s : Store),
    fieldVersion f (runCasOps ops s) = fieldVersion f s + casSuccesses f ops s := by
  intro ops
  induction ops with
  | nil =>
    intro s
    simp [runCasOps, casSuccesses]
  | cons op rest ih =>
    intro s
    rw [runCasOps, casSuccesses, ih, fieldVersion_step]
    push_cast
    ring

/-- A successful `UpdateSessionMetadata` was called at the current version,
stores and returns `k + 1`, and stores the supplied value. -/
theorem casSuccess_sessionMetadata (s : Store) (u sid : String) (k : Int) (m : String)
    (now : Int) (hst : (s.UpdateSessionMetadata u sid k m now).2.status = "success") :
    k = fieldVersion (.sessionMetadata sid) s
    ∧ (s.UpdateSessionMetadata u sid k m now).2.version = k + 1
    ∧ fieldVersion (.sessionMetadata sid) ((s.UpdateSessionMetadata u sid k m now).1) = k + 1
    ∧ (s.UpdateSessionMetadata u sid k m now).2.value = m := by
  cases hx : s.sessionsByID sid with
  | none => simp [Store.UpdateSessionMetadata, hx] at hst
  | some sess =>
    by_cases hO : sess.UserID ≠ u ∨ sess.Deleted = true
    · simp [Store.UpdateSessionMetadata, hx, hO] at hst
    · by_cases hV : k ≠ sess.MetadataVersion
      · simp [Store.UpdateSessionMetadata, hx, hO, hV] at hst
      · push_neg at hV
        refine ⟨?_, ?_, ?_, ?_⟩ <;>
          simp [Store.UpdateSessionMetadata, fieldVersion, hx, hO, hV, GoMap.set]

/-- A mismatched `UpdateSessionMetadata` leaves the store unchanged and
returns the current version and value. -/
theorem casMismatch_sessionMetadata (s : Store) (u sid : String) (k : Int) (m : String)
    (now : Int)
    (hst : (s.UpdateSessionMetadata u sid k m now).2.status = "version-mismatch") :
    (s.UpdateSessionMetadata u sid k m now).1 = s
    ∧ (s.UpdateSessionMetadata u sid k m now).2.version = fieldVersion (.sessionMetadata sid) s
    ∧ (s.sessionsByID sid).map Session.Metadata =
        some (s.UpdateSessionMetadata u sid k m now).2.value := by
  cases hx : s.sessionsByID sid with
  | none => simp [Store.UpdateSessionMetadata, hx] at hst
  | some sess =>
    by_cases hO : sess.UserID ≠ u ∨ sess.Deleted = true
    · simp [Store.UpdateSessionMetadata, hx, hO] at hst
    · by_cases hV : k ≠ sess.MetadataVersion
      · refine ⟨?_, ?_, ?_⟩ <;> simp [Store.UpdateSessionMetadata, fieldVersion, hx, hO, hV]
      · simp [Store.UpdateSessionMetadata, hx, hO, hV] at hst

/-- A successful `UpdateSessionAgentState` analog of
`casSuccess_sessionMetadata`. -/
theorem casSuccess_sessionAgentState (s : Store) (u sid : String) (k : Int)
    (a : Option String) (now : Int)
    (hst : (s.UpdateSessionAgentState u sid k a now).2.status = "success") :
    k = fieldVersion (.sessionAgentState sid) s
    ∧ (s.UpdateSessionAgentState u sid k a now).2.version = k + 1
    ∧ fieldVersion (.sessionAgentState sid) ((s.UpdateSessionAgentState u sid k a now).1) = k + 1
    ∧ (s.UpdateSessionAgentState u sid k a now).2.value = a := by
  cases hx : s.sessionsByID sid with
  | none => simp [Store.UpdateSessionAgentState, hx] at hst
  | some sess =>
    by_cases hO : sess.UserID ≠ u ∨ sess.Deleted = true
    · simp [Store.UpdateSessionAgentState, hx, hO] at hst
    · by_cases hV : k ≠ sess.AgentStateVersion
      · simp [Store.UpdateSessionAgentState, hx, hO, hV] at hst
      · push_neg at hV
        refine ⟨?_, ?_, ?_, ?_⟩ <;>
          simp [Store.UpdateSessionAgentState, fieldVersion, hx, hO, hV, GoMap.set]

/-- A mismatched `UpdateSessionAgentState` analog of
`casMismatch_sessionMetadata`. -/
theorem casMismatch_sessionAgentState (s : Store) (u sid : String) (k : Int)
    (a : Option String) (now : Int)
    (hst : (s.UpdateSessionAgentState u sid k a now).2.status = "version-mismatch") :
    (s.UpdateSessionAgentState u sid k a now).1 = s
    ∧ (s.UpdateSessionAgentState u sid k a now).2.version =
        fieldVersion (.sessionAgentState sid) s
    ∧ (s.sessionsByID sid).map Session.AgentState =
        some (s.UpdateSessionAgentState u sid k a now).2.value := by
  cases hx : s.sessionsByID sid with
  | none => simp [Store.UpdateSessionAgentState, hx] at hst
  | some sess =>
    by_cases hO : sess.UserID ≠ u ∨ sess.Deleted = true
    · simp [Store.UpdateSessionAgentState, hx, hO] at hst
    · by_cases hV : k ≠ sess.AgentStateVersion
      · refine ⟨?_, ?_, ?_⟩ <;> simp [Store.UpdateSessionAgentState, fieldVersion, hx, hO, hV]
      · simp [Store.UpdateSessionAgentState, hx, hO, hV] at hst

/-- A successful `UpdateMachineMetadata` analog. -/
theorem casSuccess_machineMetadata (s : Store) (u mid : String) (k : Int) (m : String)
    (now : Int) (hst : (s.UpdateMachineMetadata u mid k m now).2.status = "success") :
    k = fieldVersion (.machineMetadata mid) s
    ∧ (s.UpdateMachineMetadata u mid k m now).2.version = k + 1
    ∧ fieldVersion (.machineMetadata mid) ((s.UpdateMachineMetadata u mid k m now).1) = k + 1
    ∧ (s.UpdateMachineMetadata u mid k m now).2.value = m := by
  cases hx : s.machinesByID mid with
  | none => simp [Store.UpdateMachineMetadata, hx] at hst
  | some mm =>
    by_cases hO : mm.UserID ≠ u
    · simp [Store.UpdateMachineMetadata, hx, hO] at hst
    · by_cases hV : k ≠ mm.MetadataVersion
      · simp [Store.UpdateMachineMetadata, hx, hO, hV] at hst
      · push_neg at hV
        refine ⟨?_, ?_, ?_, ?_⟩ <;>
          simp [Store.UpdateMachineMetadata, fieldVersion, hx, hO, hV, GoMap.set]

/-- A mismatched `UpdateMachineMetadata` analog. -/
theorem casMismatch_machineMetadata (s : Store) (u mid : String) (k : Int) (m : String)
    (now : Int)
    (hst : (s.UpdateMachineMetadata u mid k m now).2.status = "version-mismatch") :
    (s.UpdateMachineMetadata u mid k m now).1 = s
    ∧ (s.UpdateMachineMetadata u mid k m now).2.version = fieldVersion (.machineMetadata mid) s
    ∧ (s.machinesByID mid).map Machine.Metadata =
        some (s.UpdateMachineMetadata u mid k m now).2.value := by
  cases hx : s.machinesByID mid with
  | none => simp [Store.UpdateMachineMetadata, hx] at hst
  | some mm =>
    by_cases hO : mm.UserID ≠ u
    · simp [Store.UpdateMachineMetadata, hx, hO] at hst
    · by_cases hV : k ≠ mm.MetadataVersion
      · refine ⟨?_, ?_, ?_⟩ <;> simp [Store.UpdateMachineMetadata, fieldVersion, hx, hO, hV]
      · simp [Store.UpdateMachineMetadata, hx, hO, hV] at hst

/-- A successful `UpdateMachineDaemonState` analog. -/
theorem casSuccess_machineDaemonState (s : Store) (u mid : String) (k : Int)
    (d : Option String) (now : Int)
    (hst : (s.UpdateMachineDaemonState u mid k d now).2.status = "success") :
    k = fieldVersion (.machineDaemonState mid) s
    ∧ (s.UpdateMachineDaemonState u mid k d now).2.version = k + 1
    ∧ fieldVersion (.machineDaemonState mid)
        ((s.UpdateMachineDaemonState u mid k d now).1) = k + 1
    ∧ (s.UpdateMachineDaemonState u mid k d now).2.value = d := by
  cases hx : s.machinesByID mid with
  | none => simp [Store.UpdateMachineDaemonState, hx] at hst
  | some mm =>
    by_cases hO : mm.UserID ≠ u
    · simp [Store.UpdateMachineDaemonState, hx, hO] at hst
    · by_cases hV : k ≠ mm.DaemonStateVersion
      · simp [Store.UpdateMachineDaemonState, hx, hO, hV] at hst
      · push_neg at hV
        refine ⟨?_, ?_, ?_, ?_⟩ <;>
          simp [Store.UpdateMachineDaemonState, fieldVersion, hx, hO, hV, GoMap.set]

/-- A mismatched `UpdateMachineDaemonState` analog. -/
theorem casMismatch_machineDaemonState (s : Store) (u mid : String) (k : Int)
    (d : Option String) (now : Int)
    (hst : (s.UpdateMachineDaemonState u mid k d now).2.status = "version-mismatch") :
    (s.UpdateMachineDaemonState u mid k d now).1 = s
    ∧ (s.UpdateMachineDaemonState u mid k d now).2.version =
        fieldVersion (.machineDaemonState mid) s
    ∧ (s.machinesByID mid).map Machine.DaemonState =
        some (s.UpdateMachineDaemonState u mid k d now).2.value := by
  cases hx : s.machinesByID mid with
  | none => simp [Store.UpdateMachineDaemonState, hx] at hst
  | some mm =>
    by_cases hO : mm.UserID ≠ u
    · simp [Store.UpdateMachineDaemonState, hx, hO] at hst
    · by_cases hV : k ≠ mm.DaemonStateVersion
      · refine ⟨?_, ?_, ?_⟩ <;> simp [Store.UpdateMachineDaemonState, fieldVersion, hx, hO, hV]
      · simp [Store.UpdateMachineDaemonState, hx, hO, hV] at hst

/-- A successful `UpdateAccountSettings` analog. -/
theorem casSuccess_accountSettings (s : Store) (u : String) (k : Int) (v : String)
    (now : Int) (hst : (s.UpdateAccountSettings u k v now).2.status = "success") :
    k = fieldVersion (.accountSettings u) s
    ∧ (s.UpdateAccountSettings u k v now).2.version = k + 1
    ∧ fieldVersion (.accountSettings u) ((s.UpdateAccountSettings u k v now).1) = k + 1
    ∧ (s.UpdateAccountSettings u k v now).2.value = some v := by
  by_cases hu : u = ""
  · simp [Store.UpdateAccountSettings, hu] at hst
  · by_cases hV : k ≠ (s.accountSettingsByUserID.getZ u ⟨none, 0⟩).Version
    · simp [Store.UpdateAccountSettings, hu, hV] at hst
    · push_neg at hV
      refine ⟨?_, ?_, ?_, ?_⟩ <;>
        simp [Store.UpdateAccountSettings, fieldVersion, hu, hV, GoMap.getZ, GoMap.set]

/-- A mismatched `UpdateAccountSettings` analog. -/
theorem casMismatch_accountSettings (s : Store) (u : String) (k : Int) (v : String)
    (now : Int)
    (hst : (s.UpdateAccountSettings u k v now).2.status = "version-mismatch") :
    (s.UpdateAccountSettings u k v now).1 = s
    ∧ (s.UpdateAccountSettings u k v now).2.version = fieldVersion (.accountSettings u) s
    ∧ (s.UpdateAccountSettings u k v now).2.value =
        (s.accountSettingsByUserID.getZ u ⟨none, 0⟩).Settings := by
  by_cases hu : u = ""
  · simp [Store.UpdateAccountSettings, hu] at hst
  · by_cases hV : k ≠ (s.accountSettingsByUserID.getZ u ⟨none, 0⟩).Version
    · refine ⟨?_, ?_, ?_⟩ <;> simp [Store.UpdateAccountSettings, fieldVersion, hu, hV]
    · simp [Store.UpdateAccountSettings, hu, hV] at hst

/-- A successful `UpdateArtifact` was called at the current version of each
supplied side, bumps exactly the supplied sides by one, and reports the new
per-side versions. -/
theorem casSuccess_artifact (s : Store) (u aid : String) (h : Option String)
    (ehv : Option Int) (b : Option String) (ebv : Option Int) (now : Int)
    (r : ArtifactUpdateResult) (hres : (s.UpdateArtifact u aid h ehv b ebv now).2 = .ok r)
    (hS : r.Success = true) :
    (∀ hv, h = some hv →
      ehv = some (fieldVersion (.artifactHeader (artifactKey u aid)) s)
      ∧ r.HeaderVersion = some (fieldVersion (.artifactHeader (artifactKey u aid)) s + 1)
      ∧ fieldVersion (.artifactHeader (artifactKey u aid))
          ((s.UpdateArtifact u aid h ehv b ebv now).1) =
        fieldVersion (.artifactHeader (artifactKey u aid)) s + 1)
    ∧ (∀ bv, b = some bv →
      ebv = some (fieldVersion (.artifactBody (artifactKey u aid)) s)
      ∧ r.BodyVersion = some (fieldVersion (.artifactBody (artifactKey u aid)) s + 1)
      ∧ fieldVersion (.artifactBody (artifactKey u aid))
          ((s.UpdateArtifact u aid h ehv b ebv now).1) =
        fieldVersion (.artifactBody (artifactKey u aid)) s + 1)
    ∧ (h = none → fieldVersion (.artifactHeader (artifactKey u aid))
        ((s.UpdateArtifact u aid h ehv b ebv now).1) =
      fieldVersion (.artifactHeader (artifactKey u aid)) s)
    ∧ (b = none → fieldVersion (.artifactBody (artifactKey u aid))
        ((s.UpdateArtifact u aid h ehv b ebv now).1) =
      fieldVersion (.artifactBody (artifactKey u aid)) s) := by
  by_cases hu : u = ""
  · simp [Store.UpdateArtifact, hu] at hres
  · by_cases hid : aid = ""
    · simp [Store.UpdateArtifact, hu, hid] at hres
    · cases hx : s.artifactsByKey (artifactKey u aid) with
      | none => simp [Store.UpdateArtifact, hu, hid, hx] at hres
      | some a0 =>
        by_cases hO : a0.UserID ≠ u ∨ a0.Deleted = true
        · simp [Store.UpdateArtifact, hu, hid, hx, hO] at hres
        · cases h with
          | some hv =>
            by_cases hhv : ehv = none ∨ ehv ≠ some a0.HeaderVersion
            · simp [Store.UpdateArtifact, hu, hid, hx, hO, hhv] at hres
              rw [← hres] at hS
              simp at hS
            · have hehv : ehv = some a0.HeaderVersion := by
                rcases not_or.mp hhv with ⟨_, h2⟩
                exact not_not.mp h2
              cases b with
              | some bv =>
                by_cases hbv : ebv = none ∨ ebv ≠ some a0.BodyVersion
                · simp [Store.UpdateArtifact, hu, hid, hx, hO, hhv, hbv] at hres
                  rw [← hres] at hS
                  simp at hS
                · have hebv : ebv = some a0.BodyVersion := by
                    rcases not_or.mp hbv with ⟨_, h2⟩
                    exact not_not.mp h2
                  simp [Store.UpdateArtifact, hu, hid, hx, hO, hhv, hbv] at hres
                  subst hres
                  refine ⟨?_, ?_, ?_, ?_⟩
                  · intro hv2 hEq
                    simp only [Option.some.injEq] at hEq
                    refine ⟨by simp [fieldVersion, hx, hehv], ?_, ?_⟩ <;>
                      simp_all [Store.UpdateArtifact, fieldVersion, hx, GoMap.set, hu, hid, hO,
                        hhv, hbv]
                  · intro bv2 hEq
                    simp only [Option.some.injEq] at hEq
                    refine ⟨by simp [fieldVersion, hx, hebv], ?_, ?_⟩ <;>
                      simp_all [Store.UpdateArtifact, fieldVersion, hx, GoMap.set, hu, hid, hO,
                        hhv, hbv]
                  · intro hEq
                    exact absurd hEq (by simp)
                  · intro hEq
                    exact absurd hEq (by simp)
              | none =>
                simp [Store.UpdateArtifact, hu, hid, hx, hO, hhv] at hres
                subst hres
                refine ⟨?_, ?_, ?_, ?_⟩
                · intro hv2 hEq
                  simp only [Option.some.injEq] at hEq
                  refine ⟨by simp [fieldVersion, hx, hehv], ?_, ?_⟩ <;>
                    simp_all [Store.UpdateArtifact, fieldVersion, hx, GoMap.set, hu, hid, hO, hhv]
                · intro bv2 hEq
                  exact absurd hEq (by simp)
                · intro hEq
                  exact absurd hEq (by simp)
                · intro _
                  simp_all [Store.UpdateArtifact, fieldVersion, hx, GoMap.set, hu, hid, hO, hhv]
          | none =>
            cases b with
            | some bv =>
              by_cases hbv : ebv = none ∨ ebv ≠ some a0.BodyVersion
              · simp [Store.UpdateArtifact, hu, hid, hx, hO, hbv] at hres
                rw [← hres] at hS
                simp at hS
              · have hebv : ebv = some a0.BodyVersion := by
                  rcases not_or.mp hbv with ⟨_, h2⟩
                  exact not_not.mp h2
                simp [Store.UpdateArtifact, hu, hid, hx, hO, hbv] at hres
                subst hres
                refine ⟨?_, ?_, ?_, ?_⟩
                · intro hv2 hEq
                  exact absurd hEq (by simp)
                · intro bv2 hEq
                  simp only [Option.some.injEq] at hEq
                  refine ⟨by simp [fieldVersion, hx, hebv], ?_, ?_⟩ <;>
                    simp_all [Store.UpdateArtifact, fieldVersion, hx, GoMap.set, hu, hid, hO, hbv]
                · intro _
                  simp_all [Store.UpdateArtifact, fieldVersion, hx, GoMap.set, hu, hid, hO, hbv]
                · intro hEq
                  exact absurd hEq (by simp)
            | none =>
              refine ⟨?_, ?_, ?_, ?_⟩
              · intro hv2 hEq
                exact absurd hEq (by simp)
              · intro bv2 hEq
                exact absurd hEq (by simp)
              · intro _
                simp_all [Store.UpdateArtifact, fieldVersion, hx, GoMap.set, hu, hid, hO]
              · intro _
                simp_all [Store.UpdateArtifact, fieldVersion, hx, GoMap.set, hu, hid, hO]

/-- A failed `UpdateArtifact` leaves the store unchanged. -/
theorem casFail_artifact (s : Store) (u aid : String) (h : Option String)
    (ehv : Option Int) (b : Option String) (ebv : Option Int) (now : Int)
    (r : ArtifactUpdateResult) (hres : (s.UpdateArtifact u aid h ehv b ebv now).2 = .ok r)
    (hS : r.Success = false) : (s.UpdateArtifact u aid h ehv b ebv now).1 = s := by
  by_cases hu : u = ""
  · simp [Store.UpdateArtifact, hu]
  · by_cases hid : aid = ""
    · simp [Store.UpdateArtifact, hu, hid]
    · cases hx : s.artifactsByKey (artifactKey u aid) with
      | none => simp [Store.UpdateArtifact, hu, hid, hx]
      | some a0 =>
        by_cases hO : a0.UserID ≠ u ∨ a0.Deleted = true
        · simp [Store.UpdateArtifact, hu, hid, hx, hO]
        · cases h with
          | some hv =>
            by_cases hhv : ehv = none ∨ ehv ≠ some a0.HeaderVersion
            · simp [Store.UpdateArtifact, hu, hid, hx, hO, hhv]
            · cases b with
              | some bv =>
                by_cases hbv : ebv = none ∨ ebv ≠ some a0.BodyVersion
                · simp [Store.UpdateArtifact, hu, hid, hx, hO, hhv, hbv]
                · simp [Store.UpdateArtifact, hu, hid, hx, hO, hhv, hbv] at hres
                  rw [← hres] at hS
                  simp at hS
              | none =>
                simp [Store.UpdateArtifact, hu, hid, hx, hO, hhv] at hres
                rw [← hres] at hS
                simp at hS
          | none =>
            cases b with
            | some bv =>
              by_cases hbv : ebv = none ∨ ebv ≠ some a0.BodyVersion
              · simp [Store.UpdateArtifact, hu, hid, hx, hO, hbv]
              · simp [Store.UpdateArtifact, hu, hid, hx, hO, hbv] at hres
                rw [← hres] at hS
                simp at hS
            | none =>
              simp [Store.UpdateArtifact, hu, hid, hx, hO] at hres
              rw [← hres] at hS
              simp at hS

/-- C1, counterexample: an artifact minted by `CreateArtifact` has header
version 1 after an empty sequence of update calls (zero successful updates),
so the current version does not equal the number of successful updates. -/
theorem c1_version_eq_success_count_cex :
    fieldVersion (.artifactHeader (artifactKey "u1" "a1"))
      (runCasOps [] (Store.CreateArtifact emptyStore "u1" "a1" "h1" "b1" "k1" 0).1) = 1
    ∧ casSuccesses (.artifactHeader (artifactKey "u1" "a1")) []
        (Store.CreateArtifact emptyStore "u1" "a1" "h1" "b1" "k1" 0).1 = 0
    ∧ (1 : Int) ≠ 0 :=
  ⟨rfl, rfl, by decide⟩

/-- C1, amended: after any sequence of update calls every CAS-protected
field's version equals its starting version (which is its creation version,
0 or 1, not always 0) plus the number of calls that successfully wrote that
field; a successful update called with `expectedVersion = k` was called at
current version `k` and stores and returns `k + 1` together with the new
value (per supplied side, for artifacts); a version-mismatched update
returns `version-mismatch` with the current version and value and leaves the
store unchanged (for artifacts, any failed side check returns failure and
leaves the store unchanged; see C3 for what the failure reports). -/
theorem c1_cas_version_discipline :
    (∀ (f : CasField) (ops : List CasOp) (s : Store),
      fieldVersion f (runCasOps ops s) = fieldVersion f s + casSuccesses f ops s)
    ∧ (∀ (s : Store) (u sid : String) (k : Int) (m : String) (now : Int),
      (s.UpdateSessionMetadata u sid k m now).2.status = "success" →
      k = fieldVersion (.sessionMetadata sid) s
      ∧ (s.UpdateSessionMetadata u sid k m now).2.version = k + 1
      ∧ fieldVersion (.sessionMetadata sid) ((s.UpdateSessionMetadata u sid k m now).1) = k + 1
      ∧ (s.UpdateSessionMetadata u sid k m now).2.value = m)
    ∧ (∀ (s : Store) (u sid : String) (k : Int) (a : Option String) (now : Int),
      (s.UpdateSessionAgentState u sid k a now).2.status = "success" →
      k = fieldVersion (.sessionAgentState sid) s
      ∧ (s.UpdateSessionAgentState u sid k a now).2.version = k + 1
      ∧ fieldVersion (.sessionAgentState sid)
          ((s.UpdateSessionAgentState u sid k a now).1) = k + 1
      ∧ (s.UpdateSessionAgentState u sid k a now).2.value = a)
    ∧ (∀ (s : Store) (u mid : String) (k : Int) (m : String) (now : Int),
      (s.UpdateMachineMetadata u mid k m now).2.status = "success" →
      k = fieldVersion (.machineMetadata mid) s
      ∧ (s.UpdateMachineMetadata u mid k m now).2.version = k + 1
      ∧ fieldVersion (.machineMetadata mid) ((s.UpdateMachineMetadata u mid k m now).1) = k + 1
      ∧ (s.UpdateMachineMetadata u mid k m now).2.value = m)
    ∧ (∀ (s : Store) (u mid : String) (k : Int) (d : Option String) (now : Int),
      (s.UpdateMachineDaemonState u mid k d now).2.status = "success" →
      k = fieldVersion (.machineDaemonState mid) s
      ∧ (s.UpdateMachineDaemonState u mid k d now).2.version = k + 1
      ∧ fieldVersion (.machineDaemonState mid)
          ((s.UpdateMachineDaemonState u mid k d now).1) = k + 1
      ∧ (s.UpdateMachineDaemonState u mid k d now).2.value = d)
    ∧ (∀ (s : Store) (u : String) (k : Int) (v : String) (now : Int),
      (s.UpdateAccountSettings u k v now).2.status = "success" →
      k = fieldVersion (.accountSettings u) s
      ∧ (s.UpdateAccountSettings u k v now).2.version = k + 1
      ∧ fieldVersion (.accountSettings u) ((s.UpdateAccountSettings u k v now).1) = k + 1
      ∧ (s.UpdateAccountSettings u k v now).2.value = some v)
    ∧ (∀ (s : Store) (u aid : String) (h : Option String) (ehv : Option Int)
        (b : Option String) (ebv : Option Int) (now : Int) (r : ArtifactUpdateResult),
      (s.UpdateArtifact u aid h ehv b ebv now).2 = .ok r → r.Success = true →
      (∀ hv, h = some hv →
        ehv = some (fieldVersion (.artifactHeader (artifactKey u aid)) s)
        ∧ r.HeaderVersion = some (fieldVersion (.artifactHeader (artifactKey u aid)) s + 1)
        ∧ fieldVersion (.artifactHeader (artifactKey u aid))
            ((s.UpdateArtifact u aid h ehv b ebv now).1) =
          fieldVersion (.artifactHeader (artifactKey u aid)) s + 1)
      ∧ (∀ bv, b = some bv →
        ebv = some (fieldVersion (.artifactBody (artifactKey u aid)) s)
        ∧ r.BodyVersion = some (fieldVersion (.artifactBody (artifactKey u aid)) s + 1)
        ∧ fieldVersion (.artifactBody (artifactKey u aid))
            ((s.UpdateArtifact u aid h ehv b ebv now).1) =
          fieldVersion (.artifactBody (artifactKey u aid)) s + 1)
      ∧ (h = none → fieldVersion (.artifactHeader (artifactKey u aid))
          ((s.UpdateArtifact u aid h ehv b ebv now).1) =
        fieldVersion (.artifactHeader (artifactKey u aid)) s)
      ∧ (b = none → fieldVersion (.artifactBody (artifactKey u aid))
          ((s.UpdateArtifact u aid h ehv b ebv now).1) =
        fieldVersion (.artifactBody (artifactKey u aid)) s))
    ∧ (∀ (s : Store) (u sid : String) (k : Int) (m : String) (now : Int),
      (s.UpdateSessionMetadata u sid k m now).2.status = "version-mismatch" →
      (s.UpdateSessionMetadata u sid k m now).1 = s
      ∧ (s.UpdateSessionMetadata u sid k m now).2.version =
          fieldVersion (.sessionMetadata sid) s
      ∧ (s.sessionsByID sid).map Session.Metadata =
          some (s.UpdateSessionMetadata u sid k m now).2.value)
    ∧ (∀ (s : Store) (u sid : String) (k : Int) (a : Option String) (now : Int),
      (s.UpdateSessionAgentState u sid k a now).2.status = "version-mismatch" →
      (s.UpdateSessionAgentState u sid k a now).1 = s
      ∧ (s.UpdateSessionAgentState u sid k a now).2.version =
          fieldVersion (.sessionAgentState sid) s
      ∧ (s.sessionsByID sid).map Session.AgentState =
          some (s.UpdateSessionAgentState u sid k a now).2.value)
    ∧ (∀ (s : Store) (u mid : String) (k : Int) (m : String) (now : Int),
      (s.UpdateMachineMetadata u mid k m now).2.status = "version-mismatch" →
      (s.UpdateMachineMetadata u mid k m now).1 = s
      ∧ (s.UpdateMachineMetadata u mid k m now).2.version =
          fieldVersion (.machineMetadata mid) s
      ∧ (s.machinesByID mid).map Machine.Metadata =
          some (s.UpdateMachineMetadata u mid k m now).2.value)
    ∧ (∀ (s : Store) (u mid : String) (k : Int) (d : Option String) (now : Int),
      (s.UpdateMachineDaemonState u mid k d now).2.status = "version-mismatch" →
      (s.UpdateMachineDaemonState u mid k d now).1 = s
      ∧ (s.UpdateMachineDaemonState u mid k d now).2.version =
          fieldVersion (.machineDaemonState mid) s
      ∧ (s.machinesByID mid).map Machine.DaemonState =
          some (s.UpdateMachineDaemonState u mid k d now).2.value)
    ∧ (∀ (s : Store) (u : String) (k : Int) (v : String) (now : Int),
      (s.UpdateAccountSettings u k v now).2.status = "version-mismatch" →
      (s.UpdateAccountSettings u k v now).1 = s
      ∧ (s.UpdateAccountSettings u k v now).2.version = fieldVersion (.accountSettings u) s
      ∧ (s.UpdateAccountSettings u k v now).2.value =
          (s.accountSettingsByUserID.getZ u ⟨none, 0⟩).Settings)
    ∧ (∀ (s : Store) (u aid : String) (h : Option String) (ehv : Option Int)
        (b : Option String) (ebv : Option Int) (now : Int) (r : ArtifactUpdateResult),
      (s.UpdateArtifact u aid h ehv b ebv now).2 = .ok r → r.Success = false →
      (s.UpdateArtifact u aid h ehv b ebv now).1 = s) :=
  ⟨fieldVersion_run, casSuccess_sessionMetadata, casSuccess_sessionAgentState,
    casSuccess_machineMetadata, casSuccess_machineDaemonState, casSuccess_accountSettings,
    casSuccess_artifact, casMismatch_sessionMetadata, casMismatch_sessionAgentState,
    casMismatch_machineMetadata, casMismatch_machineDaemonState, casMismatch_accountSettings,
    casFail_artifact⟩

/-- C1, witness: the run equation at a concrete one-call trace, and the
`k + 1` law at a concrete successful update. -/
theorem c1_cas_version_discipline_w :
    (fieldVersion (.sessionMetadata "s1")
        (runCasOps [.sessionMetadata "u1" "s1" 1 "m2" 5] storeS) =
      fieldVersion (.sessionMetadata "s1") storeS +
        casSuccesses (.sessionMetadata "s1") [.sessionMetadata "u1" "s1" 1 "m2" 5] storeS)
    ∧ (storeS.UpdateSessionMetadata "u1" "s1" 1 "m2" 5).2.version = 1 + 1 :=
  ⟨c1_cas_version_discipline.1 (.sessionMetadata "s1")
      [.sessionMetadata "u1" "s1" 1 "m2" 5] storeS,
    (c1_cas_version_discipline.2.1 storeS "u1" "s1" 1 "m2" 5 rfl).2.1⟩

/-! ## Claim C4 — update-metadata / update-state ack and broadcast discipline -/

/-- C4: for an `update-metadata` (resp. `update-state`) event carrying an ack
id and a well-formed body with a non-empty sid, a successful CAS update sends
the ack and broadcasts exactly one update envelope (to the session room and
the user room); on `version-mismatch` or `not-found` the ack carrying
`{result, version, value}` is sent and nothing is broadcast. -/
theorem c4_update_ack_broadcast (uuid : String) (st : Store) (useq : Int) (userID : String)
    (i : Int) (args : List Json) (now : Int) :
    (∀ body, decodeFirstArg args smuBodyOfJson = some body → body.SID ≠ "" →
      (let r := st.UpdateSessionMetadata userID body.SID body.ExpectedVersion body.Metadata now
       let ack := (i, casAckJson ['m', 'e', 't', 'a', 'd', 'a', 't', 'a'] r.2.status r.2.version
         (.str r.2.value.toList))
       (r.2.status = "success" →
         handleSessionMetadataUpdate uuid st useq userID (some i) args now =
           (r.1, useq + 1, [ack],
             [(⟨uuid, useq + 1, now, sessionMetadataUpdateBody body.SID r.2.version r.2.value⟩,
               [RoomKey.session body.SID, RoomKey.user userID])]))
       ∧ ((r.2.status = "version-mismatch" ∨ r.2.status = "not-found") →
         handleSessionMetadataUpdate uuid st useq userID (some i) args now =
           (r.1, useq, [ack], []))))
    ∧ (∀ body, decodeFirstArg args ssuBodyOfJson = some body → body.SID ≠ "" →
      (let r := st.UpdateSessionAgentState userID body.SID body.ExpectedVersion body.AgentState now
       let ack := (i, casAckJson ['a', 'g', 'e', 'n', 't', 'S', 't', 'a', 't', 'e'] r.2.status
         r.2.version (jsonOfOptStr r.2.value))
       (r.2.status = "success" →
         handleSessionStateUpdate uuid st useq userID (some i) args now =
           (r.1, useq + 1, [ack],
             [(⟨uuid, useq + 1, now, sessionAgentStateUpdateBody body.SID r.2.version r.2.value⟩,
               [RoomKey.session body.SID, RoomKey.user userID])]))
       ∧ ((r.2.status = "version-mismatch" ∨ r.2.status = "not-found") →
         handleSessionStateUpdate uuid st useq userID (some i) args now =
           (r.1, useq, [ack], [])))) := by
  constructor
  · intro body hdec hsid
    refine ⟨?_, ?_⟩
    · intro hstat
      simp [handleSessionMetadataUpdate, hdec, hsid, hstat]
    · intro hstat
      have hne : (st.UpdateSessionMetadata userID body.SID body.ExpectedVersion
          body.Metadata now).2.status ≠ "success" := by
        rcases hstat with h | h <;> rw [h] <;> decide
      simp [handleSessionMetadataUpdate, hdec, hsid, hne]
  · intro body hdec hsid
    refine ⟨?_, ?_⟩
    · intro hstat
      simp [handleSessionStateUpdate, hdec, hsid, hstat]
    · intro hstat
      have hne : (st.UpdateSessionAgentState userID body.SID body.ExpectedVersion
          body.AgentState now).2.status ≠ "success" := by
        rcases hstat with h | h <;> rw [h] <;> decide
      simp [handleSessionStateUpdate, hdec, hsid, hne]

/-- C4, witness: a concrete version-mismatch `update-metadata` event sends
the mismatch ack and broadcasts nothing. -/
theorem c4_update_ack_broadcast_w :
    handleSessionMetadataUpdate "U" storeS 5 "u1" (some 7)
      [Json.obj [(['s', 'i', 'd'], .str ['s', '1']),
        (['e', 'x', 'p', 'e', 'c', 't', 'e', 'd', 'V', 'e', 'r', 's', 'i', 'o', 'n'], .num 0),
        (['m', 'e', 't', 'a', 'd', 'a', 't', 'a'], .str ['m', '9'])]] 9 =
      (storeS, 5,
        [(7, casAckJson ['m', 'e', 't', 'a', 'd', 'a', 't', 'a'] ("version-mismatch") 1
          (.str ['m', '1']))], []) :=
  ((c4_update_ack_broadcast "U" storeS 5 "u1" 7
      [Json.obj [(['s', 'i', 'd'], .str ['s', '1']),
        (['e', 'x', 'p', 'e', 'c', 't', 'e', 'd', 'V', 'e', 'r', 's', 'i', 'o', 'n'], .num 0),
        (['m', 'e', 't', 'a', 'd', 'a', 't', 'a'], .str ['m', '9'])]] 9).1
    ⟨"s1", 0, "m9"⟩ (by decide) (by decide)).2 (Or.inl rfl)

/-! ## Claim C5 — per-session message seq contiguity -/

theorem GoMap.getZ_set_self {α : Type} (m : GoMap α) (k : String) (v z : α) :
    (m.set k v).getZ k z = v := by
  simp [GoMap.getZ, GoMap.set]

theorem GoMap.getZ_set_ne {α : Type} (m : GoMap α) (k q : String) (v z : α) (h : q ≠ k) :
    (m.set k v).getZ q z = m.getZ q z := by
  simp [GoMap.getZ, GoMap.set, h]

theorem intRangeFrom_succ (base : Int) (n : Nat) :
    intRangeFrom base (n + 1) = (base + 1) :: intRangeFrom (base + 1) n := rfl

/-- The seq values a run of appends assigns to one session start right after
the session's current generator value and are contiguous. -/
theorem seqsAssigned_eq (sid : String) : ∀ (ops : List AppendCall) (s : Store),
    seqsAssigned sid ops s = intRangeFrom (s.seqPerSession.getZ sid 0) (countAppendOk sid ops s) := by
  intro ops
  induction ops with
  | nil =>
    intro s
    simp [seqsAssigned, countAppendOk, intRangeFrom]
  | cons a rest ih =>
    intro s
    cases hG : s.GetSession a.userID a.sessionID with
    | none =>
      simp [seqsAssigned, countAppendOk, Store.AppendMessage, hG, ih]
    | some sess =>
      by_cases hsid : a.sessionID = sid
      · subst hsid
        simp only [seqsAssigned, countAppendOk, Store.AppendMessage, hG, ih]
        simp only [GoMap.getZ_set_self, if_pos, if_true]
        rw [Nat.add_comm 1 _, intRangeFrom_succ]
        simp
      · simp only [seqsAssigned, countAppendOk, Store.AppendMessage, hG, ih]
        rw [GoMap.getZ_set_ne _ _ _ _ _ (fun h => hsid h.symm)]
        simp [hsid]

/-- C5: starting from a session whose seq generator entry is fresh (value 0,
as for every newly created session), the seq values assigned by any sequence
of `AppendMessage` calls to that session are exactly `1..N` in call order,
where `N` counts the successful appends to that session. -/
theorem c5_message_seq_contiguous (ops : List AppendCall) (s0 : Store) (sid : String)
    (h0 : s0.seqPerSession.getZ sid 0 = 0) :
    seqsAssigned sid ops s0 = intRangeFrom 0 (countAppendOk sid ops s0) := by
  rw [seqsAssigned_eq, h0]

/-- C5, witness: three appends (the middle one failing on an unknown session)
assign seqs `[1, 2]`. -/
theorem c5_message_seq_contiguous_w :
    seqsAssigned ("s1") [⟨"u1", "s1", "c1", "i1", 1⟩, ⟨"u1", "zz", "c2", "i2", 2⟩,
      ⟨"u1", "s1", "c3", "i3", 3⟩] storeS =
      intRangeFrom 0 (countAppendOk ("s1") [⟨"u1", "s1", "c1", "i1", 1⟩,
        ⟨"u1", "zz", "c2", "i2", 2⟩, ⟨"u1", "s1", "c3", "i3", 3⟩] storeS) :=
  c5_message_seq_contiguous [⟨"u1", "s1", "c1", "i1", 1⟩, ⟨"u1", "zz", "c2", "i2", 2⟩,
    ⟨"u1", "s1", "c3", "i3", 3⟩] storeS ("s1") (by decide)

/-! ## Claim C7 — a machine id has at most one owner, ever -/

/-- An upsert of one machine id leaves every other machine-table entry
untouched. -/
theorem upsert_owner_other (s : Store) (u mid m : String) (d k : Option String) (now : Int)
    (M : String) (hMm : M ≠ mid) :
    ((s.UpsertMachine u mid m d k now).1).machinesByID M = s.machinesByID M := by
  by_cases h0 : mid = ""
  · simp [Store.UpsertMachine, h0]
  · cases hM : s.machinesByID mid with
    | none => simp [Store.UpsertMachine, h0, hM, GoMap.set, hMm]
    | some existing =>
      by_cases hown : existing.UserID ≠ u
      · simp [Store.UpsertMachine, h0, hM, hown]
      · cases d <;> cases k <;>
          simp only [Store.UpsertMachine, if_neg h0, hM, if_neg hown] <;>
          split_ifs <;>
          simp [GoMap.set, hMm]

/-- An owner-matching upsert never changes the recorded owner of its id. -/
theorem upsert_owner_self (s : Store) (u mid m : String) (d k : Option String) (now : Int)
    (existing : Machine) (h0 : mid ≠ "") (hM : s.machinesByID mid = some existing)
    (hown : existing.UserID = u) :
    (((s.UpsertMachine u mid m d k now).1).machinesByID mid).map Machine.UserID =
      some existing.UserID := by
  have hno : ¬existing.UserID ≠ u := not_not_intro hown
  cases d <;> cases k <;>
    simp only [Store.UpsertMachine, if_neg h0, hM, if_neg hno] <;>
    split_ifs <;>
    simp [GoMap.set, hM, hown]

/-- Once a machine id has a recorded owner, no machine operation changes it. -/
theorem ownerOf_machineOp (op : MachineOp) (s : Store) (M w : String)
    (h : ownerOf s M = some w) : ownerOf (applyMachineOp op s) M = some w := by
  cases op with
  | upsert u mid m d k now =>
    by_cases h0 : mid = ""
    · simp [applyMachineOp, Store.UpsertMachine, h0, h]
    · by_cases hMm : M = mid
      · subst hMm
        cases hM : s.machinesByID M with
        | none => simp [ownerOf, hM] at h
        | some existing =>
          by_cases hown : existing.UserID ≠ u
          · simp [applyMachineOp, Store.UpsertMachine, h0, hM, hown, h]
          · push_neg at hown
            have h2 := upsert_owner_self s u M m d k now existing h0 hM hown
            have hw : existing.UserID = w := by
              simp [ownerOf, hM] at h
              exact h
            unfold ownerOf applyMachineOp
            rw [h2, hw]
      · have h2 := upsert_owner_other s u mid m d k now M hMm
        unfold ownerOf applyMachineOp
        rw [h2]
        exact h
  | updateMetadata u mid ev m now =>
    cases hM : s.machinesByID mid with
    | none => simp [applyMachineOp, Store.UpdateMachineMetadata, hM, h]
    | some mm =>
      by_cases hMm : M = mid
      · subst hMm
        have hw : mm.UserID = w := by
          simp [ownerOf, hM] at h
          exact h
        simp [applyMachineOp, Store.UpdateMachineMetadata, hM, ownerOf, GoMap.set] at h ⊢
        split_ifs <;> simp_all [ownerOf, GoMap.set]
      · simp only [applyMachineOp, Store.UpdateMachineMetadata, hM]
        split_ifs <;> simp_all [ownerOf, GoMap.set, hMm]
  | updateDaemonState u mid ev d now =>
    cases hM : s.machinesByID mid with
    | none => simp [applyMachineOp, Store.UpdateMachineDaemonState, hM, h]
    | some mm =>
      by_cases hMm : M = mid
      · subst hMm
        have hw : mm.UserID = w := by
          simp [ownerOf, hM] at h
          exact h
        simp [applyMachineOp, Store.UpdateMachineDaemonState, hM, ownerOf, GoMap.set] at h ⊢
        split_ifs <;> simp_all [ownerOf, GoMap.set]
      · simp only [applyMachineOp, Store.UpdateMachineDaemonState, hM]
        split_ifs <;> simp_all [ownerOf, GoMap.set, hMm]

/-- Every owner recorded along a run equals the owner recorded at its start,
when one is recorded there. -/
theorem ownersTrace_const (M w : String) : ∀ (ops : List MachineOp) (s : Store),
    ownerOf s M = some w → ∀ v ∈ ownersTrace M ops s, v = w := by
  intro ops
  induction ops with
  | nil =>
    intro s h v hv
    simp [ownersTrace, h] at hv
    exact hv
  | cons op rest ih =>
    intro s h v hv
    simp only [ownersTrace, h, List.mem_append, Option.toList_some, List.mem_singleton] at hv
    cases hv with
    | inl hv => exact hv
    | inr hv => exact ih _ (ownerOf_machineOp op s M w h) v hv

/-- Any two owners ever recorded for a machine id are equal. -/
theorem ownersTrace_allEq (M : String) : ∀ (ops : List MachineOp) (s : Store) (x y : String),
    x ∈ ownersTrace M ops s → y ∈ ownersTrace M ops s → x = y := by
  intro ops
  induction ops with
  | nil =>
    intro s x y hx hy
    cases hown : ownerOf s M <;> simp [ownersTrace, hown] at hx hy
    rw [hx, hy]
  | cons op rest ih =>
    intro s x y hx hy
    cases hown : ownerOf s M with
    | some w =>
      rw [ownersTrace_const M w (op :: rest) s hown x hx,
        ownersTrace_const M w (op :: rest) s hown y hy]
    | none =>
      simp only [ownersTrace, hown, Option.toList_none, List.nil_append] at hx hy
      exact ih _ x y hx hy

/-- C7: over any sequence of machine operations the set of owners ever
recorded for a machine id has at most one element, and `UpsertMachine` by a
user other than the recorded owner fails with the distinct error and leaves
the store unchanged. -/
theorem c7_machine_single_owner :
    (∀ (M : String) (ops : List MachineOp) (s0 : Store) (x y : String),
      x ∈ ownersTrace M ops s0 → y ∈ ownersTrace M ops s0 → x = y)
    ∧ (∀ (s : Store) (userID machineID metadata : String) (d k : Option String)
        (now : Int) (m : Machine), machineID ≠ "" → s.machinesByID machineID = some m →
        m.UserID ≠ userID →
        Store.UpsertMachine s userID machineID metadata d k now =
          (s, .error "machine belongs to another user")) := by
  constructor
  · exact fun M ops s0 x y => ownersTrace_allEq M ops s0 x y
  · intro s u mid m d k now mm hne hM hown
    simp [Store.UpsertMachine, hne, hM, hown]

/-- C7, witness: a concrete trace (create by `u1`, rejected upsert by `u2`,
metadata update) records a single owner, and the cross-user upsert is
rejected with the store unchanged. -/
theorem c7_machine_single_owner_w :
    ("u1" : String) = "u1"
    ∧ Store.UpsertMachine storeM "u2" "m1" "x" none none 5 =
        (storeM, .error "machine belongs to another user") :=
  ⟨c7_machine_single_owner.1 ("m1")
      [.upsert "u1" "m1" "x" none none 1, .upsert "u2" "m1" "y" none none 2,
        .updateMetadata "u1" "m1" 1 "z" 3] emptyStore "u1" "u1" (by decide) (by decide),
    c7_machine_single_owner.2 storeM "u2" "m1" "x" none none 5 sampleMachine (by decide) rfl
      (by decide)⟩

end HappyLite
